import Mathlib

/-!
Verification of fabric-samples: `chaincode/sacc` and `chaincode/addc`.

A shallow embedding of the two Go chaincodes and of the small part of the
Hyperledger Fabric shim and of the Go standard library they call, followed by
theorems about them.

Conventions of the embedding

* Go `string` and `[]byte` values are Lean `String`s; the conversions
  `[]byte(s)` and `string(b)` are the identity.  A `nil` byte slice is `none`.
* Go `uint64` values are `Nat`s; every arithmetic operation that can leave the
  range is followed by `% 2 ^ 64`.
* A Go `error` is an `Option String` (`none` is `nil`), a Go result pair
  `(string, error)` is an `Except String String`.
* The ledger behind the stub is a finite map from keys to values.  A read of a
  key or the `i`-th write of a transaction may fail; which ones do is fixed by
  the two fault oracles `getErr` and `putErr` of the stub.  A write that
  succeeds is visible to later reads, a write that fails changes nothing, and
  the write of an empty value deletes the key.
* Calls of the logger are not observable and are left out.
* `sync.Mutex` makes the section of `Invoke` that it guards run without
  interruption: `sacc.locked` is that section, and invocations that overlap
  run their sections one after the other (`sacc.runLocked`).
-/

/-! ## Go standard library: `strconv`, `fmt`, `sort` -/

/-- Largest `uint64`. -/
def maxUint64 : Nat := 2 ^ 64 - 1

namespace strconv

/-- The two kinds of `*strconv.NumError` that `ParseUint` returns. -/
inductive NumErr where
  | ErrSyntax
  | ErrRange
deriving DecidableEq

/-- A `*strconv.NumError`: the failing function is always `ParseUint`. -/
structure NumError where
  Num : String
  Err : NumErr
deriving DecidableEq

/-- The backslash. -/
def backslash : Char := Char.ofNat 92

/-- The double quote. -/
def dquote : Char := Char.ofNat 34

/-- Go `lowerhex[n]`, the hexadecimal digit of `n` modulo 16. -/
def lowerhex (n : Nat) : Char := Nat.digitChar (n % 16)

/-- Go `strconv.IsPrint(r)`. For `r ≤ 0xFF` this is the fast path of the
library: `0x20 ..= 0x7E`, and `0xA1 ..= 0xFF` without the soft hyphen `0xAD`.
Above `0xFF` the library looks the rune up in its tables; here every such rune
is taken as printable. -/
def IsPrint (r : Nat) : Bool :=
  if r ≤ 0xFF then
    if 0x20 ≤ r ∧ r ≤ 0x7E then true
    else if 0xA1 ≤ r ∧ r ≤ 0xFF then r != 0xAD
    else false
  else true

/-- Go `appendEscapedRune(buf, r, quote, false, false)` with the double quote
as `quote`: what `Quote` writes for one rune. -/
def escapedRune (c : Char) : List Char :=
  let r := c.toNat
  if r = 34 ∨ r = 92 then [backslash, c]
  else if IsPrint r = true then [c]
  else if r = 7 then [backslash, 'a']
  else if r = 8 then [backslash, 'b']
  else if r = 12 then [backslash, 'f']
  else if r = 10 then [backslash, 'n']
  else if r = 13 then [backslash, 'r']
  else if r = 9 then [backslash, 't']
  else if r = 11 then [backslash, 'v']
  else if r < 32 ∨ r = 127 then [backslash, 'x', lowerhex (r / 16), lowerhex r]
  else [backslash, 'u', lowerhex (r / 4096), lowerhex (r / 256), lowerhex (r / 16),
    lowerhex r]

/-- Go `strconv.Quote(s)` for a string of valid UTF-8: the escaped runes
between double quotes. -/
def Quote (s : String) : String :=
  String.mk (dquote :: (s.data.flatMap escapedRune ++ [dquote]))

/-- Go `(*NumError).Error()`:
`"strconv." + e.Func + ": parsing " + Quote(e.Num) + ": " + e.Err.Error()`. -/
def NumError.Error (e : NumError) : String :=
  "strconv.ParseUint: parsing " ++ Quote e.Num ++ ": " ++
    (match e.Err with
     | .ErrSyntax => "invalid syntax"
     | .ErrRange => "value out of range")

/-- The `cutoff` of `ParseUint` for base 10: the smallest number such that
`cutoff * 10 > maxUint64`. -/
def cutoff : Nat := maxUint64 / 10 + 1

/-- The digit loop of `strconv.ParseUint(s, 10, 64)`. In base 10 every byte
that is not an ASCII digit ends in `syntaxError` (a letter has value at least
10, which is not below the base; `_` is only accepted for base 0). -/
def parseLoop (s0 : String) : List Char → Nat → Except NumError Nat
  | [], n => .ok n
  | c :: cs, n =>
    if '0'.toNat ≤ c.toNat ∧ c.toNat ≤ '9'.toNat then
      let d := c.toNat - '0'.toNat
      if n ≥ cutoff then
        -- n*base overflows
        .error ⟨s0, .ErrRange⟩
      else
        let n10 := (n * 10) % 2 ^ 64
        let n1 := (n10 + d) % 2 ^ 64
        if n1 < n10 ∨ n1 > maxUint64 then
          -- n+d overflows
          .error ⟨s0, .ErrRange⟩
        else
          parseLoop s0 cs n1
    else
      .error ⟨s0, .ErrSyntax⟩

/-- Go `strconv.ParseUint(s, 10, 64)`: the `uint64` a decimal text denotes, a
syntax error for an empty text or a byte that is no digit, a range error above
`maxUint64`. -/
def ParseUint (s : String) : Except NumError Nat :=
  if s = "" then .error ⟨s, .ErrSyntax⟩
  else parseLoop s s.data 0

end strconv

namespace fmt

/-- Go `fmt.Sprintf("%d", n)` and `fmt.Sprintf("%v", n)` for an unsigned integer:
its decimal text. -/
def Sprintd (n : Nat) : String := Nat.repr n

end fmt

namespace sort

/-- Go `data.Swap(i, j)` on a slice. -/
def swap {α : Type} (data : List α) (i j : Nat) : List α :=
  match data[i]?, data[j]? with
  | some x, some y => (data.set i y).set j x
  | _, _ => data

/-- The inner loop of `insertionSort_func`:
`for j := i; j > a && data.Less(j, j-1); j-- { data.Swap(j, j-1) }`. -/
def insertionInner {α : Type} (less : Nat → Nat → Bool) (a : Nat) :
    Nat → List α → List α
  | 0, data => data
  | j + 1, data =>
    if a < j + 1 ∧ less (j + 1) j = true then
      insertionInner less a j (swap data (j + 1) j)
    else data

/-- Go `insertionSort_func(data, a, b)`:
`for i := a + 1; i < b; i++ { ... }`. -/
def insertionSort {α : Type} (less : Nat → Nat → Bool) (data : List α)
    (a b : Nat) : List α :=
  (List.range' (a + 1) (b - (a + 1))).foldl
    (fun data i => insertionInner less a i data) data

/-- Go `sort.Slice(x, less)` for a slice of at most 12 elements, where every
version of the library runs `insertionSort_func(data, 0, len(x))` and nothing
else. `less` gets indices, as in Go. -/
def Slice {α : Type} (x : List α) (less : Nat → Nat → Bool) : List α :=
  insertionSort less x 0 x.length

end sort

/-! ## The shim: responses, the stub and the ledger behind it -/

namespace peer

/-- Go `peer.Response`. `Payload = none` is a `nil` payload. -/
structure Response where
  Status : Nat
  Message : String
  Payload : Option String
deriving DecidableEq

end peer

namespace shim

/-- Status `shim.OK`, also `http.StatusOK`. -/
def OK : Nat := 200

/-- Status `shim.ERROR`. -/
def ERROR : Nat := 500

/-- Go `shim.Success(payload)`. -/
def Success (payload : Option String) : peer.Response :=
  { Status := OK, Message := "", Payload := payload }

/-- Go `shim.Error(msg)`. -/
def Error (msg : String) : peer.Response :=
  { Status := ERROR, Message := msg, Payload := none }

/-- World state of the ledger: `none` is a key that holds no value. -/
abbrev Ledger := String → Option String

/-- A `shim.ChaincodeStubInterface` as one transaction sees it. -/
structure Stub where
  /-- all arguments of the proposal, the function name first -/
  stringArgs : List String
  /-- the world state -/
  state : Ledger
  /-- fault oracle of `GetState`: the error a read of the key ends in -/
  getErr : String → Option String
  /-- fault oracle of `PutState`: the error the `i`-th write of this
  transaction ends in -/
  putErr : Nat → Option String
  /-- number of `PutState` calls made so far in this transaction -/
  puts : Nat
  /-- what `InvokeChaincode(name, args, channel)` answers -/
  chaincode : String → List String → String → peer.Response

/-- Go `stub.GetStringArgs()`. -/
def Stub.GetStringArgs (stub : Stub) : List String := stub.stringArgs

/-- Go `stub.GetFunctionAndParameters()`: the first argument is the function
name, the rest are the parameters; both are empty without arguments. -/
def Stub.GetFunctionAndParameters (stub : Stub) : String × List String :=
  match stub.GetStringArgs with
  | [] => ("", [])
  | function :: params => (function, params)

/-- Shim `stub.GetState(key)`, the `Get` of the ledger interface. The value (`none`, Go `nil`, for an absent key) or the read
error. -/
def Stub.GetState (stub : Stub) (key : String) : Except String (Option String) :=
  match stub.getErr key with
  | some e => .error e
  | none => .ok (stub.state key)

/-- Shim `stub.PutState(key, value)`, the `Put` of the ledger interface. The
error (if any) and the stub afterwards; a write that fails leaves the world
state as it was, and the ledger takes the write of an empty value as the
deletion of the key. -/
def Stub.PutState (stub : Stub) (key value : String) : Option String × Stub :=
  match stub.putErr stub.puts with
  | some e => (some e, { stub with puts := stub.puts + 1 })
  | none =>
    (none, { stub with
              puts := stub.puts + 1
              state := fun k =>
                if k = key then (if value = "" then none else some value)
                else stub.state k })

/-- Shim `stub.InvokeChaincode(name, args, channel)`, the call of a sibling
chaincode: status, payload and message of the sibling. -/
def Stub.InvokeChaincode (stub : Stub) (name : String) (args : List String)
    (channel : String) : peer.Response :=
  stub.chaincode name args channel

end shim

/-! ## `chaincode/sacc/sacc.go` -/

namespace sacc

open shim

/-- Type `SimpleAsset` of sacc: the in-memory nonce counter (`uint64`). -/
structure SimpleAsset where
  nonce : Nat

/-- Method `(*SimpleAsset).Init`. Returns the response, the receiver and the stub
afterwards. -/
def Init (t : SimpleAsset) (stub : Stub) : peer.Response × SimpleAsset × Stub :=
  let args := stub.GetStringArgs
  if args.length ≠ 2 then
    (shim.Error "Incorrect arguments. Expecting a key and a value", t, stub)
  else
    match stub.PutState "nonce" (fmt.Sprintd 0) with
    | (some _, stub) => (shim.Success (some "failed to init nonce"), t, stub)
    | (none, stub) =>
      let t : SimpleAsset := { t with nonce := 0 }
      match stub.PutState "nonce" (fmt.Sprintd t.nonce) with
      | (some _, stub) =>
        (shim.Error ("Failed to create asset: " ++ args.headD ""), t, stub)
      | (none, stub) => (shim.Success none, t, stub)

/-- Function `set`: stores the asset and the nonce on the ledger. -/
def set (stub : Stub) (args : List String) (nonce : Nat) :
    Except String String × Stub :=
  match args with
  | [a0, a1] =>
    match stub.PutState a0 a1 with
    | (some _, stub) => (.error ("Failed to set asset: " ++ a0), stub)
    | (none, stub) =>
      match stub.PutState "nonce" (fmt.Sprintd nonce) with
      | (some _, stub) => (.error ("Failed to set nonce: " ++ a0), stub)
      | (none, stub) => (.ok a1, stub)
  | _ => (.error "Incorrect arguments. Expecting a key and a value", stub)

/-- Function `get`: the value of the asset key. -/
def get (stub : Stub) (args : List String) : Except String String :=
  match args with
  | [a0] =>
    match stub.GetState a0 with
    | .error err =>
      .error ("Failed to get asset: " ++ a0 ++ " with error: " ++ err)
    | .ok none => .error ("Asset not found: " ++ a0)
    | .ok (some value) => .ok value
  | _ => .error "Incorrect arguments. Expecting a key"

/-- Method `(*SimpleAsset).Invoke`. Returns the response, the receiver and the stub
afterwards. In the "set" branch the variable `err` is declared anew, so the
test `err != nil` after the branch never sees an error of `set`. -/
def Invoke (t : SimpleAsset) (stub : Stub) : peer.Response × SimpleAsset × Stub :=
  let (fn, args) := stub.GetFunctionAndParameters
  if fn = "set" then
    match stub.GetState "nonce" with
    | .error err => (shim.Error err, t, stub)
    | .ok nonceBytes =>
      let nonceStr :=
        if (nonceBytes.getD "").length ≠ 0 then nonceBytes.getD "" else "0"
      match strconv.ParseUint nonceStr with
      | .error err => (shim.Error err.Error, t, stub)
      | .ok nonce =>
        if t.nonce < nonce then
          (shim.Error "double spent", t, stub)
        else
          let t : SimpleAsset := { t with nonce := (t.nonce + 1) % 2 ^ 64 }
          -- `result, err = set(...)` assigns the `err` that `nonceBytes, err :=`
          -- declared inside the block; the `err` tested after the block is the
          -- outer one, still nil, so an error of `set` is answered with
          -- `shim.Success([]byte(""))`
          match set stub args nonce with
          | (.error _, stub) => (shim.Success (some ""), t, stub)
          | (.ok result, stub) => (shim.Success (some result), t, stub)
  else
    -- assume 'get' even if fn is nil
    match get stub args with
    | .error err => (shim.Error err, t, stub)
    | .ok result => (shim.Success (some result), t, stub)

/-- Lines 69 to 75 of `Invoke`, the section that runs under `t.lock`, with the
answer that lines 81 to 86 make of it: the guard, the increment and `set`, for
the nonce `nonce` that lines 56 to 68 read before the lock was taken. -/
def locked (t : SimpleAsset) (stub : Stub) (args : List String) (nonce : Nat) :
    peer.Response × SimpleAsset × Stub :=
  if t.nonce < nonce then
    (shim.Error "double spent", t, stub)
  else
    let t : SimpleAsset := { t with nonce := (t.nonce + 1) % 2 ^ 64 }
    match set stub args nonce with
    | (.error _, stub) => (shim.Success (some ""), t, stub)
    | (.ok result, stub) => (shim.Success (some result), t, stub)

end sacc

/-! ## `chaincode/addc/sacc.go` -/

namespace addc

open shim

/-- What a Go function of type `(string, error)` that may fault ends in. -/
inductive Result where
  /-- returns `(v, nil)` -/
  | ok (v : String)
  /-- returns `("", err)` -/
  | err (msg : String)
  /-- run-time panic -/
  | panic (msg : String)
deriving DecidableEq

/-- What an entry point ends in: a response, or a run-time panic. -/
inductive Outcome where
  | response (r : peer.Response)
  | panic (msg : String)
deriving DecidableEq

/-- Type `SimpleAsset` of addc: the balance cache `map[string]uint64`; `none` is
the `nil` map. -/
structure SimpleAsset where
  token : Option (String → Option Nat)

/-- Method `(*SimpleAsset).Init`: a fresh, empty cache. -/
def Init (_t : SimpleAsset) (stub : Stub) : peer.Response × SimpleAsset × Stub :=
  (shim.Success none, { token := some (fun _ => none) }, stub)

/-- Function `random`: the decimal text of the value `rand.Uint64()` draws, here
`draw`. -/
def random (draw : Nat) (_stub : Stub) (_userID : String) (_token : Nat) : Result :=
  .ok (fmt.Sprintd draw)

/-- One round of the loop of `addRand`, for sibling number `i`. -/
def addRandStep (stub : Stub) (userID : String) (res : List Nat) (i : Nat) :
    List Nat :=
  let cc := "addc" ++ fmt.Sprintd i
  let resp := stub.InvokeChaincode cc ["random", userID] "mychannel"
  if resp.Status ≠ shim.OK then
    res
  else
    match strconv.ParseUint (resp.Payload.getD "") with
    | .error _ => res
    | .ok v => res ++ [v]

/-- Function `addRand`: asks `addc1` and `addc2` for a random value, sorts the usable
replies and returns the first. -/
def addRand (stub : Stub) (userID : String) (_token : Nat) : Result :=
  let res := [1, 2].foldl (addRandStep stub userID) []
  let res := sort.Slice res (fun i j => decide (i > j))
  match res with
  | [] => .panic "runtime error: index out of range [0] with length 0"
  | r0 :: _ => .ok (fmt.Sprintd r0)

/-- Function `add`: persists what `addRand` selected under the user and
returns the decimal text of `token`. -/
def add (stub : Stub) (userID : String) (token : Nat) : Result × Stub :=
  match addRand stub userID token with
  | .panic msg => (.panic msg, stub)
  | .err err => (.err err, stub)
  | .ok res =>
    match stub.PutState userID res with
    | (some _, stub) =>
      (.err ("failed to set asset " ++ fmt.Sprintd token ++ " for " ++ userID), stub)
    | (none, stub) => (.ok (fmt.Sprintd token), stub)

/-- Go `t.token[key] = v`. -/
def assign (token : String → Option Nat) (key : String) (v : Nat) :
    String → Option Nat :=
  fun k => if k = key then some v else token k

/-- Method `(*SimpleAsset).Invoke`; `draw` is the value `rand.Uint64()` would give.
Returns the outcome, the receiver and the stub afterwards. -/
def Invoke (draw : Nat) (t : SimpleAsset) (stub : Stub) :
    Outcome × SimpleAsset × Stub :=
  let token : String → Option Nat := t.token.getD (fun _ => none)
  let (fn, args) := stub.GetFunctionAndParameters
  match args with
  | [] =>
    (.panic "runtime error: index out of range [0] with length 0",
      { token := some token }, stub)
  | a0 :: _ =>
    -- `v, ok := t.token[args[0]]` and the lazy load from the ledger
    let loaded : Except peer.Response (Nat × (String → Option Nat)) :=
      match token a0 with
      | some v => .ok (v, token)
      | none =>
        match stub.GetState a0 with
        | .error err => .error (shim.Error ("user is not found, " ++ err))
        | .ok vv =>
          if (vv.getD "").length = 0 then
            .ok (0, assign token a0 0)
          else
            match strconv.ParseUint (vv.getD "") with
            | .error err => .error (shim.Error err.Error)
            | .ok v => .ok (v, assign token a0 v)
    match loaded with
    | .error r => (.response r, { token := some token }, stub)
    | .ok (v, token) =>
      let t : SimpleAsset := { token := some token }
      if fn = "add" then
        match add stub a0 v with
        | (.panic msg, stub) => (.panic msg, t, stub)
        | (.err err, stub) => (.response (shim.Error err), t, stub)
        | (.ok result, stub) => (.response (shim.Success (some result)), t, stub)
      else if fn = "random" then
        match random draw stub a0 v with
        | .panic msg => (.panic msg, t, stub)
        | .err err => (.response (shim.Error err), t, stub)
        | .ok result => (.response (shim.Success (some result)), t, stub)
      else
        (.response (shim.Success (some "")), t, stub)

end addc

/-! ## Vocabulary of the statements -/

namespace strconv

/-- The byte is an ASCII decimal digit, the test of `parseLoop`. -/
def IsDigit (c : Char) : Prop := '0'.toNat ≤ c.toNat ∧ c.toNat ≤ '9'.toNat

/-- The number that the digits `l` denote when they follow the digits of
`acc`. -/
def digitsValue (l : List Char) (acc : Nat) : Nat :=
  l.foldl (fun a c => a * 10 + (c.toNat - '0'.toNat)) acc

end strconv

namespace sacc

open shim

/-- The nonce a "set" invocation reads from the ledger, as `Invoke` computes
it: the `uint64` that `ParseUint` makes of the value under "nonce" ("0" when
that value is empty or absent); `none` when the read or the parse fails. -/
def persistedNonce (stub : Stub) : Option Nat :=
  match stub.GetState "nonce" with
  | .error _ => none
  | .ok nonceBytes =>
    match strconv.ParseUint
        (if (nonceBytes.getD "").length ≠ 0 then nonceBytes.getD "" else "0") with
    | .error _ => none
    | .ok nonce => some nonce

/-- A stub whose ledger reads and writes all succeed and that has no sibling
chaincode to call. -/
def stubOf (args : List String) (state : Ledger) : Stub :=
  { stringArgs := args
    state := state
    getErr := fun _ => none
    putErr := fun _ => none
    puts := 0
    chaincode := fun _ _ _ => shim.Error "no such chaincode" }

/-- The ledger that holds "0" under "nonce" and nothing else. -/
def ledgerZero : Ledger := fun k => if k = "nonce" then some "0" else none

/-- No ledger read and no ledger write of the transaction fails. -/
def NoFault (stub : Stub) : Prop :=
  (∀ k, stub.getErr k = none) ∧ (∀ i, stub.putErr i = none)

/-- Scenario: `Init` on an empty ledger with a fresh receiver. -/
def scenarioInit : peer.Response × SimpleAsset × Stub :=
  Init ⟨0⟩ (stubOf ["alice", "0"] (fun _ => none))

/-- Scenario: `set("alice","100")` after `scenarioInit`. -/
def scenarioSet : peer.Response × SimpleAsset × Stub :=
  Invoke scenarioInit.2.1 (stubOf ["set", "alice", "100"] scenarioInit.2.2.state)

/-- Scenario: the identical `set("alice","100")` once more, after `scenarioSet`. -/
def scenarioReplay : peer.Response × SimpleAsset × Stub :=
  Invoke scenarioSet.2.1 (stubOf ["set", "alice", "100"] scenarioSet.2.2.state)

/-- Scenario: `get("alice")` after `scenarioSet`. -/
def scenarioGet : peer.Response × SimpleAsset × Stub :=
  Invoke scenarioSet.2.1 (stubOf ["get", "alice"] scenarioSet.2.2.state)

/-- The nonce value stored in a ledger, read the way `Invoke` reads it. -/
def storedNonce (L : Ledger) : Option Nat := persistedNonce (stubOf [] L)

/-- The in-memory counter is at least the nonce stored in the ledger. -/
def NonceInv (t : SimpleAsset) (L : Ledger) : Prop :=
  ∃ n, storedNonce L = some n ∧ n ≤ t.nonce

/-- The pairs (receiver, ledger) reachable from a successful `Init` by a
sequence of `Invoke` calls, each on a stub that satisfies `P` and sees the
ledger the previous call left. -/
inductive Reachable (P : Stub → Prop) : SimpleAsset → Ledger → Prop
  | init (t0 : SimpleAsset) (s0 : Stub) :
      (Init t0 s0).1 = shim.Success none →
      Reachable P (Init t0 s0).2.1 (Init t0 s0).2.2.state
  | step (t : SimpleAsset) (L : Ledger) (stub : Stub) :
      Reachable P t L → stub.state = L → P stub →
      Reachable P (Invoke t stub).2.1 (Invoke t stub).2.2.state

/-- A "set" on the reserved key itself whose asset write goes through also
gets its nonce write through. -/
def NonceWriteCompletes (stub : Stub) : Prop :=
  ∀ v, stub.stringArgs = ["set", "nonce", v] →
    stub.putErr stub.puts = none → stub.putErr (stub.puts + 1) = none

/-- The transaction `set("nonce","5")` after `scenarioInit` whose first write
goes through and whose second write fails. -/
def tornStub : Stub :=
  { stringArgs := ["set", "nonce", "5"]
    state := scenarioInit.2.2.state
    getErr := fun _ => none
    putErr := fun i => if i = 1 then some "write failed" else none
    puts := 0
    chaincode := fun _ _ _ => shim.Error "no such chaincode" }

/-- The ledger that holds "5" under "nonce" and nothing else. -/
def ledgerFive : Ledger := fun k => if k = "nonce" then some "5" else none

/-- An `Init` transaction with two arguments on `ledgerFive` whose first
write fails. -/
def failedInitStub : Stub :=
  { stringArgs := ["alice", "0"]
    state := ledgerFive
    getErr := fun _ => none
    putErr := fun i => if i = 0 then some "write failed" else none
    puts := 0
    chaincode := fun _ _ _ => shim.Error "no such chaincode" }

/-- The transaction `set("alice","100")` after `scenarioInit` whose first
write fails. -/
def failedSetStub : Stub :=
  { stringArgs := ["set", "alice", "100"]
    state := scenarioInit.2.2.state
    getErr := fun _ => none
    putErr := fun i => if i = 0 then some "write failed" else none
    puts := 0
    chaincode := fun _ _ _ => shim.Error "no such chaincode" }

/-- Concurrent "set" invocations that have all read the nonce `nonce` (lines
56 to 68) before any of them takes the lock: their locked sections run one
after the other, in the order of the list, each on the counter and the ledger
that the one before left. An entry is the stub of an invocation and its
parameters. Returns the responses in that order, the receiver and the ledger
afterwards. -/
def runLocked (nonce : Nat) :
    SimpleAsset → Ledger → List (Stub × List String) →
      List peer.Response × SimpleAsset × Ledger
  | t, L, [] => ([], t, L)
  | t, L, (stub, args) :: rest =>
    let r := locked t { stub with state := L } args nonce
    let rs := runLocked nonce r.2.1 r.2.2.state rest
    (r.1 :: rs.1, rs.2)

/-- The two concurrent invocations `set("alice","100")` and `set("bob","7")`
after `scenarioInit`, in this order. -/
def twoSets : List (Stub × List String) :=
  [(stubOf ["set", "alice", "100"] scenarioInit.2.2.state, ["alice", "100"]),
   (stubOf ["set", "bob", "7"] scenarioInit.2.2.state, ["bob", "7"])]

/-- The response `Invoke` makes of what `get` returns on the arguments. -/
def getResponse (stub : Stub) (args : List String) : peer.Response :=
  match get stub args with
  | .error err => shim.Error err
  | .ok result => shim.Success (some result)

end sacc

namespace addc

open shim

/-- The reply of sibling number `i` to the `random` call of `addRand`. -/
def reply (stub : Stub) (userID : String) (i : Nat) : peer.Response :=
  stub.InvokeChaincode ("addc" ++ fmt.Sprintd i) ["random", userID] "mychannel"

/-- The reply is usable and carries the value `v`: status 200 and a payload
that `ParseUint` reads as `v`. -/
def Usable (r : peer.Response) (v : Nat) : Prop :=
  r.Status = shim.OK ∧ strconv.ParseUint (r.Payload.getD "") = .ok v

/-- The reply is dropped: its status is not 200 or its payload is not a
`uint64` in decimal. -/
def Dropped (r : peer.Response) : Prop :=
  r.Status ≠ shim.OK ∨ ∃ e, strconv.ParseUint (r.Payload.getD "") = .error e

/-- A stub for addc: no ledger fault, `addc1` answers `r1` and `addc2`
answers `r2`. -/
def stubOf (args : List String) (state : Ledger) (r1 r2 : peer.Response) : Stub :=
  { stringArgs := args
    state := state
    getErr := fun _ => none
    putErr := fun _ => none
    puts := 0
    chaincode := fun name _ _ =>
      if name = "addc1" then r1
      else if name = "addc2" then r2
      else shim.Error "no such chaincode" }

/-- The way `Invoke` turns what `add` returns into its own outcome. -/
def respond (t : SimpleAsset) : Result × Stub → Outcome × SimpleAsset × Stub
  | (.panic msg, stub) => (.panic msg, t, stub)
  | (.err err, stub) => (.response (shim.Error err), t, stub)
  | (.ok result, stub) => (.response (shim.Success (some result)), t, stub)

end addc

/-! ## Theorems: decimal text and `ParseUint` -/

namespace strconv

theorem digitChar_digit (m : Nat) (h : m < 10) :
    IsDigit (Nat.digitChar m) ∧ (Nat.digitChar m).toNat - '0'.toNat = m := by
  unfold IsDigit
  interval_cases m <;> decide

theorem digitsValue_cons (c : Char) (cs : List Char) (acc : Nat) :
    digitsValue (c :: cs) acc = digitsValue cs (acc * 10 + (c.toNat - '0'.toNat)) := rfl

theorem le_digitsValue (l : List Char) (acc : Nat) : acc ≤ digitsValue l acc := by
  induction l generalizing acc with
  | nil => exact Nat.le_refl _
  | cons c cs ih =>
    rw [digitsValue_cons]
    have := ih (acc * 10 + (c.toNat - '0'.toNat))
    omega

/-- Every character that `Nat.toDigitsCore 10` puts in front of `ds` is a
decimal digit. -/
theorem toDigitsCore_digits (fuel n : Nat) (ds : List Char)
    (hds : ∀ c ∈ ds, IsDigit c) :
    ∀ c ∈ Nat.toDigitsCore 10 fuel n ds, IsDigit c := by
  induction fuel generalizing n ds with
  | zero => exact hds
  | succ fuel ih =>
    have hd := (digitChar_digit (n % 10) (Nat.mod_lt _ (by decide))).1
    have hcons : ∀ c ∈ Nat.digitChar (n % 10) :: ds, IsDigit c := by
      intro c hc
      rcases List.mem_cons.mp hc with h | h
      · rw [h]; exact hd
      · exact hds c h
    unfold Nat.toDigitsCore
    simp only
    split
    · exact hcons
    · exact ih (n / 10) _ hcons

/-- With enough fuel the digits that `Nat.toDigitsCore 10` puts in front of
`ds` denote `n`. -/
theorem toDigitsCore_value (fuel n : Nat) (ds : List Char) (h : n < fuel) :
    digitsValue (Nat.toDigitsCore 10 fuel n ds) 0 = digitsValue ds n := by
  induction fuel generalizing n ds with
  | zero => omega
  | succ fuel ih =>
    have hd := (digitChar_digit (n % 10) (Nat.mod_lt _ (by decide))).2
    unfold Nat.toDigitsCore
    simp only
    split
    · rename_i h0
      rw [digitsValue_cons, hd]
      have : n % 10 = n := by omega
      rw [this, Nat.zero_mul, Nat.zero_add]
    · rename_i h0
      rw [ih (n / 10) _ (by omega), digitsValue_cons, hd]
      have : n / 10 * 10 + n % 10 = n := by omega
      rw [this]

theorem toDigits_ne_nil (n : Nat) : Nat.toDigits 10 n ≠ [] := by
  have aux (fuel m : Nat) (ds : List Char) (hds : ds ≠ []) :
      Nat.toDigitsCore 10 fuel m ds ≠ [] := by
    induction fuel generalizing m ds with
    | zero => exact hds
    | succ fuel ih =>
      unfold Nat.toDigitsCore
      simp only
      split
      · simp
      · exact ih _ _ (by simp)
  unfold Nat.toDigits Nat.toDigitsCore
  simp only
  split
  · simp
  · exact aux _ _ _ (by simp)

/-- On a list of decimal digits that denotes a `uint64`, the loop of
`ParseUint` ends without error in that number. -/
theorem parseLoop_digits (s0 : String) (l : List Char) (acc : Nat)
    (hl : ∀ c ∈ l, IsDigit c) (hv : digitsValue l acc < 2 ^ 64) :
    parseLoop s0 l acc = .ok (digitsValue l acc) := by
  induction l generalizing acc with
  | nil => rfl
  | cons c cs ih =>
    have hc : IsDigit c := hl c (List.mem_cons_self _ _)
    have hcs : ∀ c ∈ cs, IsDigit c := fun x hx => hl x (List.mem_cons_of_mem _ hx)
    rw [digitsValue_cons] at hv ⊢
    have hge := le_digitsValue cs (acc * 10 + (c.toNat - '0'.toNat))
    have hlt : acc * 10 + (c.toNat - '0'.toNat) < 2 ^ 64 := by omega
    have h10 : acc * 10 < 2 ^ 64 := by omega
    have hcut : ¬ (acc ≥ cutoff) := by
      have : cutoff = 1844674407370955162 := by decide
      rw [this]
      have h264 : (2 : Nat) ^ 64 = 18446744073709551616 := by norm_num
      omega
    have hmax : maxUint64 = 2 ^ 64 - 1 := rfl
    unfold parseLoop
    unfold IsDigit at hc
    simp only [hc, and_self, if_true, hcut, if_false, Nat.mod_eq_of_lt h10,
      Nat.mod_eq_of_lt hlt]
    have hno : ¬ (acc * 10 + (c.toNat - '0'.toNat) < acc * 10 ∨
        acc * 10 + (c.toNat - '0'.toNat) > maxUint64) := by
      rw [hmax]
      omega
    simp only [hno, if_false]
    exact ih _ hcs hv

/-- The decimal text of a number is never empty. -/
theorem Sprintd_ne_empty (n : Nat) : fmt.Sprintd n ≠ "" := by
  intro hc
  have hdata : (fmt.Sprintd n).data = Nat.toDigits 10 n := rfl
  have : (fmt.Sprintd n).data = [] := by rw [hc]
  rw [hdata] at this
  exact toDigits_ne_nil n this

/-- The text `fmt.Sprintd` makes of a `uint64` is read back by `ParseUint` as
that number. -/
theorem ParseUint_Sprintd (n : Nat) (h : n < 2 ^ 64) :
    ParseUint (fmt.Sprintd n) = .ok n := by
  have hdata : (fmt.Sprintd n).data = Nat.toDigits 10 n := rfl
  have hne : fmt.Sprintd n ≠ "" := Sprintd_ne_empty n
  have hval : digitsValue (Nat.toDigits 10 n) 0 = n := by
    unfold Nat.toDigits
    rw [toDigitsCore_value (n + 1) n [] (Nat.lt_succ_self n)]
    rfl
  unfold ParseUint
  simp only [hne, if_false]
  have hdig : ∀ c ∈ Nat.toDigits 10 n, IsDigit c :=
    toDigitsCore_digits (n + 1) n [] (fun _ hc => absurd hc (List.not_mem_nil _))
  rw [hdata, parseLoop_digits _ (Nat.toDigits 10 n) 0 hdig (by rw [hval]; exact h), hval]

end strconv

/-! ## Theorems: sacc -/

namespace sacc

open shim

/-- A "set" invocation that has read the nonce `n` from the ledger is the
locked section run on `n`. -/
theorem Invoke_set_eq_locked (t : SimpleAsset) (stub : Stub) (args : List String)
    (n : Nat)
    (hfn : stub.GetFunctionAndParameters = ("set", args))
    (hn : persistedNonce stub = some n) :
    Invoke t stub = locked t stub args n := by
  unfold persistedNonce at hn
  unfold Invoke locked
  rw [hfn]
  simp only [if_true]
  cases hg : stub.GetState "nonce" with
  | error e => rw [hg] at hn; simp at hn
  | ok nonceBytes =>
    rw [hg] at hn
    simp only at hn ⊢
    cases hp : strconv.ParseUint
        (if (nonceBytes.getD "").length ≠ 0 then nonceBytes.getD "" else "0") with
    | error e => rw [hp] at hn; simp at hn
    | ok nonce =>
      rw [hp] at hn
      simp only [Option.some.injEq] at hn
      subst hn
      rfl

/-- The locked section on a nonce that does not exceed the counter: the guard
lets it pass, the answer is a success response and the counter has grown by
one modulo `2 ^ 64`. -/
theorem locked_granted (t : SimpleAsset) (stub : Stub) (args : List String)
    (n : Nat) (hle : n ≤ t.nonce) :
    (locked t stub args n).1 ≠ shim.Error "double spent" ∧
      (locked t stub args n).1.Status = shim.OK ∧
      (locked t stub args n).2.1.nonce = (t.nonce + 1) % 2 ^ 64 := by
  unfold locked
  simp only [Nat.not_lt.mpr hle, if_false]
  cases hs : set stub args n with
  | mk r stub2 =>
    cases r <;> simp [shim.Error, shim.Success, shim.OK, shim.ERROR]

theorem Invoke_set_granted (t : SimpleAsset) (stub : Stub) (args : List String)
    (n : Nat)
    (hfn : stub.GetFunctionAndParameters = ("set", args))
    (hn : persistedNonce stub = some n) (hle : n ≤ t.nonce) :
    (Invoke t stub).1 ≠ shim.Error "double spent" ∧
      (Invoke t stub).2.1.nonce = (t.nonce + 1) % 2 ^ 64 := by
  rw [Invoke_set_eq_locked t stub args n hfn hn]
  exact ⟨(locked_granted t stub args n hle).1, (locked_granted t stub args n hle).2.2⟩

/-- C1 (amended): for every in-memory counter value `c` with `c + 1` still a
`uint64` and every persisted nonce `n ≤ c` read from the ledger, a "set"
invocation is not rejected as a double spend and leaves the in-memory counter
at exactly `c + 1`. -/
theorem Invoke_set_authorized (t : SimpleAsset) (stub : Stub) (args : List String)
    (n : Nat)
    (hfn : stub.GetFunctionAndParameters = ("set", args))
    (hn : persistedNonce stub = some n) (hle : n ≤ t.nonce)
    (hc : t.nonce + 1 < 2 ^ 64) :
    (Invoke t stub).1 ≠ shim.Error "double spent" ∧
      (Invoke t stub).2.1.nonce = t.nonce + 1 := by
  have h := Invoke_set_granted t stub args n hfn hn hle
  rw [Nat.mod_eq_of_lt hc] at h
  exact h

/-- Witness of C1 (amended): counter 0, persisted nonce "0", set("alice","100"). -/
theorem Invoke_set_authorized_witness :
    (stubOf ["set", "alice", "100"] ledgerZero).GetFunctionAndParameters
        = ("set", ["alice", "100"]) ∧
      persistedNonce (stubOf ["set", "alice", "100"] ledgerZero) = some 0 ∧
      (Invoke ⟨0⟩ (stubOf ["set", "alice", "100"] ledgerZero)).1
        ≠ shim.Error "double spent" ∧
      (Invoke ⟨0⟩ (stubOf ["set", "alice", "100"] ledgerZero)).2.1.nonce = 0 + 1 :=
  ⟨rfl, rfl,
    Invoke_set_authorized ⟨0⟩ (stubOf ["set", "alice", "100"] ledgerZero)
      ["alice", "100"] 0 rfl rfl (Nat.le_refl 0) (by decide)⟩

/-- C1 as stated fails at the largest counter: with counter `2^64 - 1` and
persisted nonce `0 ≤ 2^64 - 1` the "set" is granted and the counter wraps to
`0`, which is not `(2^64 - 1) + 1`. -/
theorem Invoke_set_wraps_at_max :
    persistedNonce (stubOf ["set", "alice", "100"] ledgerZero) = some 0 ∧
      0 ≤ maxUint64 ∧
      (Invoke ⟨maxUint64⟩ (stubOf ["set", "alice", "100"] ledgerZero)).1
        = shim.Success (some "100") ∧
      (Invoke ⟨maxUint64⟩ (stubOf ["set", "alice", "100"] ledgerZero)).2.1.nonce = 0 ∧
      (Invoke ⟨maxUint64⟩ (stubOf ["set", "alice", "100"] ledgerZero)).2.1.nonce
        ≠ maxUint64 + 1 := by
  refine ⟨rfl, Nat.zero_le _, ?_, ?_, ?_⟩ <;> decide

/-- C2: for every counter value `c` and every persisted nonce `n > c`, a "set"
invocation returns the error response "double spent", leaves the counter at
`c` and writes nothing: the ledger and the number of writes are unchanged. -/
theorem Invoke_set_double_spent (t : SimpleAsset) (stub : Stub)
    (args : List String) (n : Nat)
    (hfn : stub.GetFunctionAndParameters = ("set", args))
    (hn : persistedNonce stub = some n) (hgt : t.nonce < n) :
    (Invoke t stub).1 = shim.Error "double spent" ∧
      (Invoke t stub).2.1.nonce = t.nonce ∧
      (Invoke t stub).2.2.state = stub.state ∧
      (Invoke t stub).2.2.puts = stub.puts := by
  have key : Invoke t stub = (shim.Error "double spent", t, stub) := by
    unfold persistedNonce at hn
    unfold Invoke
    rw [hfn]
    simp only [if_true]
    cases hg : stub.GetState "nonce" with
    | error e => rw [hg] at hn; simp at hn
    | ok nonceBytes =>
      rw [hg] at hn
      simp only at hn ⊢
      cases hp : strconv.ParseUint
          (if (nonceBytes.getD "").length ≠ 0 then nonceBytes.getD "" else "0") with
      | error e => rw [hp] at hn; simp at hn
      | ok nonce =>
        rw [hp] at hn
        simp only [Option.some.injEq] at hn
        subst hn
        simp only [hgt, if_true]
  rw [key]
  exact ⟨rfl, rfl, rfl, rfl⟩

/-- Witness of C2: counter 0 and "5" under "nonce". -/
theorem Invoke_set_double_spent_witness :
    persistedNonce (stubOf ["set", "alice", "100"]
        (fun k => if k = "nonce" then some "5" else none)) = some 5 ∧
      (Invoke ⟨0⟩ (stubOf ["set", "alice", "100"]
        (fun k => if k = "nonce" then some "5" else none))).1
        = shim.Error "double spent" ∧
      (Invoke ⟨0⟩ (stubOf ["set", "alice", "100"]
        (fun k => if k = "nonce" then some "5" else none))).2.1.nonce = 0 ∧
      (Invoke ⟨0⟩ (stubOf ["set", "alice", "100"]
        (fun k => if k = "nonce" then some "5" else none))).2.2.state
        = (fun k => if k = "nonce" then some "5" else none) ∧
      (Invoke ⟨0⟩ (stubOf ["set", "alice", "100"]
        (fun k => if k = "nonce" then some "5" else none))).2.2.puts = 0 :=
  ⟨rfl,
    Invoke_set_double_spent ⟨0⟩
      (stubOf ["set", "alice", "100"] (fun k => if k = "nonce" then some "5" else none))
      ["alice", "100"] 5 rfl rfl (by decide)⟩

theorem Sprintd_zero : fmt.Sprintd 0 = "0" := by decide

theorem ParseUint_zero : strconv.ParseUint "0" = .ok 0 := by rfl

/-- What an `Init` that answers `shim.Success(nil)` has done: both writes of
"0" under "nonce" went through and the counter is 0. -/
theorem Init_success (t : SimpleAsset) (stub : Stub)
    (h : (Init t stub).1 = shim.Success none) :
    (Init t stub).2.1.nonce = 0 ∧
      (Init t stub).2.2.state = fun k => if k = "nonce" then some "0" else stub.state k := by
  unfold Init at h ⊢
  simp only [Sprintd_zero] at h ⊢
  split at h
  · simp [shim.Error, shim.Success, shim.OK, shim.ERROR] at h
  · rename_i hlen
    simp only [hlen, if_false]
    unfold Stub.PutState at h ⊢
    cases h1 : stub.putErr stub.puts with
    | some e => rw [h1] at h; simp [shim.Success] at h
    | none =>
      simp only [h1] at h ⊢
      cases h2 : stub.putErr (stub.puts + 1) with
      | some e => rw [h2] at h; simp [shim.Error, shim.Success, shim.OK, shim.ERROR] at h
      | none =>
        refine ⟨rfl, ?_⟩
        funext k
        by_cases hk : k = "nonce" <;> simp [hk]

/-- A "set" of `(k, v)` on a ledger that holds "0" under "nonce", when the
read and the two writes succeed: it is granted whatever the counter is, and
leaves "0" under "nonce". -/
theorem Invoke_set_on_zero (t : SimpleAsset) (stub : Stub) (k v : String)
    (hargs : stub.stringArgs = ["set", k, v])
    (hz : stub.state "nonce" = some "0")
    (hr : stub.getErr "nonce" = none)
    (hw1 : stub.putErr stub.puts = none)
    (hw2 : stub.putErr (stub.puts + 1) = none) :
    (Invoke t stub).1 = shim.Success (some v) ∧
      (Invoke t stub).2.1.nonce = (t.nonce + 1) % 2 ^ 64 ∧
      (Invoke t stub).2.2.state
        = fun k' => if k' = "nonce" then some "0"
            else if k' = k then (if v = "" then none else some v)
            else stub.state k' := by
  have hlen : ("0" : String).length ≠ 0 := by decide
  unfold Invoke Stub.GetFunctionAndParameters Stub.GetStringArgs Stub.GetState
  simp only [hargs, hr, hz, if_true, Option.getD_some, hlen, ne_eq, not_false_eq_true,
    ParseUint_zero, Nat.not_lt_zero, if_false]
  have h0 : ¬ (("0" : String) = "") := by decide
  unfold set Stub.PutState
  simp only [hw1, hw2, Sprintd_zero, h0, if_false]
  exact ⟨trivial, trivial, trivial⟩

theorem NoFault_stubOf (args : List String) (state : Ledger) :
    NoFault (stubOf args state) := ⟨fun _ => rfl, fun _ => rfl⟩

/-- C3 as stated fails: after a successful `Init`, `set("alice","100")`
succeeds, and the identical "set" replayed is granted again instead of being
rejected as a double spend. -/
theorem replay_is_granted :
    scenarioInit.1 = shim.Success none ∧
      scenarioSet.1 = shim.Success (some "100") ∧
      scenarioReplay.1 = shim.Success (some "100") ∧
      scenarioReplay.1 ≠ shim.Error "double spent" := by
  decide

/-- C3 (amended): starting from the state left by a successful `Init` (both
writes of the nonce went through), a "set" invocation with arguments `(k, v)`,
for instance ("alice", "100"), succeeds when its ledger accesses do, and the
identical "set" replayed succeeds as well: it is not rejected. -/
theorem set_replay_after_Init (t0 : SimpleAsset) (s0 s1 s2 : Stub) (k v : String)
    (hinit : (Init t0 s0).1 = shim.Success none)
    (h1a : s1.stringArgs = ["set", k, v])
    (h1s : s1.state = (Init t0 s0).2.2.state) (h1f : NoFault s1)
    (h2a : s2.stringArgs = ["set", k, v])
    (h2s : s2.state = (Invoke (Init t0 s0).2.1 s1).2.2.state) (h2f : NoFault s2) :
    (Invoke (Init t0 s0).2.1 s1).1 = shim.Success (some v) ∧
      (Invoke (Invoke (Init t0 s0).2.1 s1).2.1 s2).1 = shim.Success (some v) ∧
      (Invoke (Invoke (Init t0 s0).2.1 s1).2.1 s2).1 ≠ shim.Error "double spent" := by
  have hi := Init_success t0 s0 hinit
  have hz1 : s1.state "nonce" = some "0" := by rw [h1s, hi.2]; simp
  have r1 := Invoke_set_on_zero (Init t0 s0).2.1 s1 k v h1a hz1 (h1f.1 _) (h1f.2 _) (h1f.2 _)
  have hz2 : s2.state "nonce" = some "0" := by rw [h2s, r1.2.2]; simp
  have r2 := Invoke_set_on_zero (Invoke (Init t0 s0).2.1 s1).2.1 s2 k v h2a hz2
    (h2f.1 _) (h2f.2 _) (h2f.2 _)
  refine ⟨r1.1, r2.1, ?_⟩
  rw [r2.1]
  simp [shim.Success, shim.Error, shim.OK, shim.ERROR]

/-- Witness of C3 (amended): the scenario on an empty ledger. -/
theorem set_replay_after_Init_witness :
    scenarioInit.1 = shim.Success none ∧
      scenarioSet.1 = shim.Success (some "100") ∧
      scenarioReplay.1 = shim.Success (some "100") ∧
      scenarioReplay.1 ≠ shim.Error "double spent" :=
  ⟨by decide,
    set_replay_after_Init ⟨0⟩ (stubOf ["alice", "0"] (fun _ => none))
      (stubOf ["set", "alice", "100"] scenarioInit.2.2.state)
      (stubOf ["set", "alice", "100"] scenarioSet.2.2.state) "alice" "100"
      (by decide) rfl rfl (NoFault_stubOf _ _) rfl rfl (NoFault_stubOf _ _)⟩

/-- A "set" of `(k, v)` with a non-empty `v` that is answered with the success
response carrying `v` has written `v` under `k` and then the decimal text of
the nonce it read under "nonce". -/
theorem Invoke_set_success (t : SimpleAsset) (stub : Stub) (k v : String)
    (hargs : stub.stringArgs = ["set", k, v]) (hv : v ≠ "")
    (hok : (Invoke t stub).1 = shim.Success (some v)) :
    ∃ n, persistedNonce stub = some n ∧ n ≤ t.nonce ∧
      (Invoke t stub).2.1.nonce = (t.nonce + 1) % 2 ^ 64 ∧
      (Invoke t stub).2.2.state
        = fun k' => if k' = "nonce" then some (fmt.Sprintd n)
            else if k' = k then some v else stub.state k' := by
  have hv2 : ¬ ("" = v) := fun h => hv h.symm
  unfold persistedNonce
  unfold Invoke Stub.GetFunctionAndParameters Stub.GetStringArgs at hok ⊢
  simp only [hargs, if_true] at hok ⊢
  cases hg : stub.GetState "nonce" with
  | error e =>
    rw [hg] at hok
    simp [shim.Error, shim.Success, shim.OK, shim.ERROR] at hok
  | ok nonceBytes =>
    rw [hg] at hok
    simp only at hok ⊢
    cases hp : strconv.ParseUint
        (if (nonceBytes.getD "").length ≠ 0 then nonceBytes.getD "" else "0") with
    | error e =>
      rw [hp] at hok
      simp [shim.Error, shim.Success, shim.OK, shim.ERROR] at hok
    | ok nonce =>
      rw [hp] at hok
      simp only at hok ⊢
      by_cases hlt : t.nonce < nonce
      · simp [hlt, shim.Error, shim.Success, shim.OK, shim.ERROR] at hok
      · simp only [hlt, if_false] at hok ⊢
        refine ⟨nonce, rfl, Nat.not_lt.mp hlt, ?_⟩
        unfold set Stub.PutState at hok ⊢
        cases h1 : stub.putErr stub.puts with
        | some e => simp [h1, shim.Success, hv2] at hok
        | none =>
          simp only [h1] at hok ⊢
          cases h2 : stub.putErr (stub.puts + 1) with
          | some e => simp [h2, shim.Success, hv2] at hok
          | none =>
            simp only [strconv.Sprintd_ne_empty, hv, if_false]
            exact ⟨trivial, trivial⟩

/-- C4 as stated fails in two ways. After `Init`, `set("alice","")` succeeds
and the ledger takes the empty value as a deletion, so the `get("alice")` that
follows answers "Asset not found". And a `set("alice","100")` whose first
write fails is answered with a success response all the same, and the
`get("alice")` that follows answers "Asset not found". -/
theorem set_then_get_fails :
    (Invoke scenarioInit.2.1 (stubOf ["set", "alice", ""] scenarioInit.2.2.state)).1
        = shim.Success (some "") ∧
      (Invoke
        (Invoke scenarioInit.2.1
          (stubOf ["set", "alice", ""] scenarioInit.2.2.state)).2.1
        (stubOf ["get", "alice"]
          (Invoke scenarioInit.2.1
            (stubOf ["set", "alice", ""] scenarioInit.2.2.state)).2.2.state)).1
        = shim.Error "Asset not found: alice" ∧
      failedSetStub.putErr failedSetStub.puts = some "write failed" ∧
      (Invoke scenarioInit.2.1 failedSetStub).1.Status = shim.OK ∧
      (Invoke (Invoke scenarioInit.2.1 failedSetStub).2.1
        (stubOf ["get", "alice"]
          (Invoke scenarioInit.2.1 failedSetStub).2.2.state)).1
        = shim.Error "Asset not found: alice" := by
  decide

/-- C4 (amended): for every key `k` other than "nonce" and every non-empty
value `v`, if a "set" invocation with arguments `(k, v)` is answered with the
success response that carries `v`, then a "get" invocation with argument `(k)`
that runs next on the ledger it left, and whose ledger read goes through,
succeeds with payload `v`. -/
theorem set_then_get (t : SimpleAsset) (s1 s2 : Stub) (k v : String)
    (hk : k ≠ "nonce") (hv : v ≠ "")
    (h1a : s1.stringArgs = ["set", k, v])
    (hok : (Invoke t s1).1 = shim.Success (some v))
    (h2a : s2.stringArgs = ["get", k])
    (h2s : s2.state = (Invoke t s1).2.2.state)
    (h2r : s2.getErr k = none) :
    (Invoke (Invoke t s1).2.1 s2).1 = shim.Success (some v) := by
  obtain ⟨n, -, -, -, hst⟩ := Invoke_set_success t s1 k v h1a hv hok
  have hval : s2.state k = some v := by rw [h2s, hst]; simp [hk]
  have hne : ¬ ("get" = "set") := by decide
  unfold Invoke Stub.GetFunctionAndParameters Stub.GetStringArgs
  simp only [h2a, hne, if_false]
  unfold get Stub.GetState
  simp only [h2r, hval]

/-- Witness of C4 (amended): `Init`, then `set("alice","100")`, then
`get("alice")` returns "100". -/
theorem set_then_get_witness :
    scenarioInit.1 = shim.Success none ∧
      scenarioSet.1 = shim.Success (some "100") ∧
      scenarioGet.1 = shim.Success (some "100") :=
  ⟨by decide, by decide,
    set_then_get scenarioInit.2.1
      (stubOf ["set", "alice", "100"] scenarioInit.2.2.state)
      (stubOf ["get", "alice"] scenarioSet.2.2.state) "alice" "100"
      (by decide) (by decide) rfl (by decide) rfl rfl rfl⟩

/-- C5: for every ledger state and every key `k` that holds no value in it, a
"get" invocation with argument `(k)` returns an error response, never a
success response; the error is "Asset not found" whenever the ledger read
itself goes through, and the ledger and the counter are untouched. -/
theorem get_absent (t : SimpleAsset) (stub : Stub) (k : String)
    (hargs : stub.stringArgs = ["get", k])
    (habs : stub.state k = none) :
    (Invoke t stub).1.Status = shim.ERROR ∧
      (Invoke t stub).1.Status ≠ shim.OK ∧
      (Invoke t stub).1.Payload = none ∧
      (stub.getErr k = none →
        (Invoke t stub).1 = shim.Error ("Asset not found: " ++ k)) := by
  have hne : ¬ ("get" = "set") := by decide
  unfold Invoke Stub.GetFunctionAndParameters Stub.GetStringArgs
  simp only [hargs, hne, if_false]
  unfold get Stub.GetState
  cases hr : stub.getErr k with
  | some e => simp [hr, shim.Error, shim.OK, shim.ERROR]
  | none => simp [hr, habs, shim.Error, shim.OK, shim.ERROR]

/-- Witness of C5: `get("bob")` on the ledger that holds only the nonce. -/
theorem get_absent_witness :
    ledgerZero "bob" = none ∧
      (Invoke ⟨0⟩ (stubOf ["get", "bob"] ledgerZero)).1.Status = shim.ERROR ∧
      (Invoke ⟨0⟩ (stubOf ["get", "bob"] ledgerZero)).1.Status ≠ shim.OK ∧
      (Invoke ⟨0⟩ (stubOf ["get", "bob"] ledgerZero)).1.Payload = none ∧
      ((stubOf ["get", "bob"] ledgerZero).getErr "bob" = none →
        (Invoke ⟨0⟩ (stubOf ["get", "bob"] ledgerZero)).1
          = shim.Error ("Asset not found: " ++ "bob")) :=
  ⟨by decide, get_absent ⟨0⟩ (stubOf ["get", "bob"] ledgerZero) "bob" rfl (by decide)⟩

/-- C6 at the failing input `Init`, `set("alice","100")`: the "set" succeeds,
the counter is 1 afterwards, and the ledger holds "0" under "nonce", which is
not the decimal text "1" of the counter. -/
theorem set_persists_stale_nonce :
    scenarioInit.1 = shim.Success none ∧
      scenarioSet.1 = shim.Success (some "100") ∧
      scenarioSet.2.1.nonce = 1 ∧
      scenarioSet.2.2.state "nonce" = some "0" ∧
      scenarioSet.2.2.state "nonce" ≠ some (fmt.Sprintd scenarioSet.2.1.nonce) := by
  decide

/-- An `Invoke` for a function name other than "set" changes neither the
receiver nor the stub. -/
theorem Invoke_other_frame (t : SimpleAsset) (stub : Stub)
    (h : stub.GetFunctionAndParameters.1 ≠ "set") :
    (Invoke t stub).2 = (t, stub) := by
  unfold Invoke
  cases hfp : stub.GetFunctionAndParameters with
  | mk fn args =>
    rw [hfp] at h
    simp only at h
    simp only [h, if_false]
    cases get stub args <;> rfl

/-- One `Invoke` keeps "0" under "nonce" when the stub satisfies
`NonceWriteCompletes`. -/
theorem Invoke_keeps_zero (t : SimpleAsset) (stub : Stub)
    (hz : stub.state "nonce" = some "0") (hP : NonceWriteCompletes stub) :
    (Invoke t stub).2.2.state "nonce" = some "0" := by
  by_cases hfn : stub.GetFunctionAndParameters.1 = "set"
  · cases hfp : stub.GetFunctionAndParameters with
    | mk fn args =>
      rw [hfp] at hfn
      simp only at hfn
      subst hfn
      have hsa : stub.stringArgs = "set" :: args := by
        unfold Stub.GetFunctionAndParameters Stub.GetStringArgs at hfp
        cases hl : stub.stringArgs with
        | nil => rw [hl] at hfp; simp at hfp
        | cons a as =>
          rw [hl] at hfp
          simp only [Prod.mk.injEq] at hfp
          rw [hfp.1, hfp.2]
      have hlen : ("0" : String).length ≠ 0 := by decide
      unfold Invoke
      rw [hfp]
      simp only [if_true]
      unfold Stub.GetState
      cases hr : stub.getErr "nonce" with
      | some e => simpa using hz
      | none =>
        simp only [hz, Option.getD_some, hlen, ne_eq, not_false_eq_true, if_true,
          ParseUint_zero, Nat.not_lt_zero, if_false]
        rcases args with _ | ⟨a0, _ | ⟨a1, _ | ⟨a2, rest⟩⟩⟩
        · simpa [set] using hz
        · simpa [set] using hz
        · unfold set Stub.PutState
          cases h1 : stub.putErr stub.puts with
          | some e => simpa using hz
          | none =>
            simp only
            cases h2 : stub.putErr (stub.puts + 1) with
            | some e =>
              simp only
              by_cases ha : a0 = "nonce"
              · subst ha
                have := hP a1 hsa h1
                rw [h2] at this
                simp at this
              · have hna : ¬ ("nonce" = a0) := fun h => ha h.symm
                simp [hna, hz]
            | none => simp [Sprintd_zero]
        · simpa [set] using hz
  · rw [Invoke_other_frame t stub hfn]
    exact hz

theorem storedNonce_of_zero (L : Ledger) (h : L "nonce" = some "0") :
    storedNonce L = some 0 := by
  have hlen : ("0" : String).length ≠ 0 := by decide
  unfold storedNonce persistedNonce Stub.GetState stubOf
  simp only [h, Option.getD_some, hlen, ne_eq, not_false_eq_true, if_true, ParseUint_zero]

/-- C7 as stated fails: `Init`, then `set("nonce","5")` whose asset write goes
through and whose nonce write fails, reaches a state with counter 1 and "5"
under "nonce". -/
theorem torn_set_breaks_NonceInv :
    Reachable (fun _ => True) (Invoke scenarioInit.2.1 tornStub).2.1
        (Invoke scenarioInit.2.1 tornStub).2.2.state ∧
      (Invoke scenarioInit.2.1 tornStub).1 = shim.Success (some "") ∧
      (Invoke scenarioInit.2.1 tornStub).2.1.nonce = 1 ∧
      (Invoke scenarioInit.2.1 tornStub).2.2.state "nonce" = some "5" ∧
      storedNonce (Invoke scenarioInit.2.1 tornStub).2.2.state = some 5 ∧
      ¬ NonceInv (Invoke scenarioInit.2.1 tornStub).2.1
          (Invoke scenarioInit.2.1 tornStub).2.2.state := by
  have hs : storedNonce (Invoke scenarioInit.2.1 tornStub).2.2.state = some 5 := by rfl
  have hc : (Invoke scenarioInit.2.1 tornStub).2.1.nonce = 1 := by decide
  refine ⟨?_, by decide, hc, by decide, hs, ?_⟩
  · exact Reachable.step scenarioInit.2.1 scenarioInit.2.2.state tornStub
      (Reachable.init ⟨0⟩ (stubOf ["alice", "0"] (fun _ => none)) (by decide)) rfl trivial
  · rintro ⟨n, hn, hle⟩
    rw [hs] at hn
    rw [hc] at hle
    simp only [Option.some.injEq] at hn
    omega

/-- In every state reachable from a successful `Init` by `Invoke` calls whose
stubs satisfy `NonceWriteCompletes`, the ledger holds "0" under "nonce". -/
theorem Reachable_keeps_zero (t : SimpleAsset) (L : Ledger)
    (h : Reachable NonceWriteCompletes t L) : L "nonce" = some "0" := by
  induction h with
  | init t0 s0 hinit =>
    rw [(Init_success t0 s0 hinit).2]
    simp
  | step t L stub _ hst hP ih =>
    exact Invoke_keeps_zero t stub (by rw [hst]; exact ih) hP

/-- C7 (amended): in every state reachable from a successful `Init` by any
sequence of `Invoke` calls (get or set, any arguments, ledger accesses
succeeding or failing) in which no "set" on the key "nonce" itself has its
asset write go through and its nonce write fail, the in-memory counter is
greater than or equal to the nonce stored in the ledger. -/
theorem Reachable_NonceInv (t : SimpleAsset) (L : Ledger)
    (h : Reachable NonceWriteCompletes t L) :
    NonceInv t L :=
  ⟨0, storedNonce_of_zero L (Reachable_keeps_zero t L h), Nat.zero_le _⟩

/-- Witness of C7 (amended): the state after `Init` and `set("alice","100")`. -/
theorem Reachable_NonceInv_witness :
    Reachable NonceWriteCompletes scenarioSet.2.1 scenarioSet.2.2.state ∧
      NonceInv scenarioSet.2.1 scenarioSet.2.2.state :=
  have hr : Reachable NonceWriteCompletes scenarioSet.2.1 scenarioSet.2.2.state :=
    Reachable.step scenarioInit.2.1 scenarioInit.2.2.state
      (stubOf ["set", "alice", "100"] scenarioInit.2.2.state)
      (Reachable.init ⟨0⟩ (stubOf ["alice", "0"] (fun _ => none)) (by decide)) rfl
      (fun _ _ _ => rfl)
  ⟨hr, Reachable_NonceInv scenarioSet.2.1 scenarioSet.2.2.state hr⟩

end sacc

/-! ## Theorems: addc -/

namespace addc

open shim

theorem addRandStep_usable (stub : Stub) (userID : String) (res : List Nat)
    (i v : Nat) (h : Usable (reply stub userID i) v) :
    addRandStep stub userID res i = res ++ [v] := by
  unfold Usable reply at h
  unfold addRandStep
  simp only [h.1, ne_eq, not_true_eq_false, if_false, h.2]

theorem addRandStep_dropped (stub : Stub) (userID : String) (res : List Nat)
    (i : Nat) (h : Dropped (reply stub userID i)) :
    addRandStep stub userID res i = res := by
  unfold Dropped reply at h
  unfold addRandStep
  rcases h with h | ⟨e, h⟩
  · simp only [h, ne_eq, not_false_eq_true, if_true]
  · simp only [h]
    split <;> rfl

/-- The slice that `addRand` sorts has at most two entries, so `sort.Slice`
runs the insertion sort on it. -/
theorem addRand_collects_at_most_two (stub : Stub) (userID : String) :
    ([1, 2].foldl (addRandStep stub userID) []).length ≤ 2 := by
  have step (res : List Nat) (i : Nat) :
      (addRandStep stub userID res i).length ≤ res.length + 1 := by
    unfold addRandStep
    simp only
    split
    · omega
    · split <;> simp
  have h1 := step [] 1
  have h2 := step (addRandStep stub userID [] 1) 2
  simp only [List.foldl]
  simp only [List.length_nil] at h1
  omega

/-- With two usable replies `a` (from `addc1`) and `b` (from `addc2`),
`addRand` returns the decimal text of `b`: the comparator of the sort looks at
the indices, so the sort swaps the two entries whatever they hold. -/
theorem addRand_two (stub : Stub) (userID : String) (token a b : Nat)
    (h1 : Usable (reply stub userID 1) a) (h2 : Usable (reply stub userID 2) b) :
    addRand stub userID token = .ok (fmt.Sprintd b) := by
  unfold addRand
  simp only [List.foldl, addRandStep_usable stub userID _ 1 a h1,
    addRandStep_usable stub userID _ 2 b h2]
  rfl

/-- With one usable reply `v` and the other reply dropped, `addRand` returns
the decimal text of `v`. -/
theorem addRand_one (stub : Stub) (userID : String) (token v : Nat)
    (h : (Usable (reply stub userID 1) v ∧ Dropped (reply stub userID 2)) ∨
      (Dropped (reply stub userID 1) ∧ Usable (reply stub userID 2) v)) :
    addRand stub userID token = .ok (fmt.Sprintd v) := by
  unfold addRand
  rcases h with ⟨h1, h2⟩ | ⟨h1, h2⟩
  · simp only [List.foldl, addRandStep_usable stub userID _ 1 v h1,
      addRandStep_dropped stub userID _ 2 h2]
    rfl
  · simp only [List.foldl, addRandStep_dropped stub userID _ 1 h1,
      addRandStep_usable stub userID _ 2 v h2]
    rfl

/-- C8 at the failing input: `addc1` replies "7" and `addc2` replies "3".
`addRand` selects "3", not the maximum 7, and "add" persists "3" as the
balance; with the replies the other way round it selects "7". -/
theorem addRand_selects_second :
    addRand (stubOf ["add", "u"] (fun _ => none)
        (shim.Success (some "7")) (shim.Success (some "3"))) "u" 0 = .ok "3" ∧
      fmt.Sprintd (max 7 3) = "7" ∧
      (Invoke 0 ⟨none⟩ (stubOf ["add", "u"] (fun _ => none)
        (shim.Success (some "7")) (shim.Success (some "3")))).2.2.state "u" = some "3" ∧
      addRand (stubOf ["add", "u"] (fun _ => none)
        (shim.Success (some "3")) (shim.Success (some "7"))) "u" 0 = .ok "7" := by
  decide

/-- What `add` does once `addRand` has selected `sel`: one write of `sel`
under the user, and on success the decimal text of `token` as the result. -/
theorem addRand_ok_ne_empty (stub : Stub) (userID sel : String) (token : Nat)
    (h : addRand stub userID token = .ok sel) : sel ≠ "" := by
  unfold addRand at h
  simp only at h
  split at h
  · simp at h
  · simp only [Result.ok.injEq] at h
    rw [← h]
    exact strconv.Sprintd_ne_empty _

theorem add_of_addRand (stub : Stub) (userID sel : String) (token : Nat)
    (h : addRand stub userID token = .ok sel) :
    (add stub userID token).2 = (stub.PutState userID sel).2 ∧
      (stub.putErr stub.puts = none →
        (add stub userID token).1 = .ok (fmt.Sprintd token) ∧
        (add stub userID token).2.state userID = some sel) ∧
      (∀ e, stub.putErr stub.puts = some e →
        (add stub userID token).1
          = .err ("failed to set asset " ++ fmt.Sprintd token ++ " for " ++ userID) ∧
        (add stub userID token).2.state = stub.state) := by
  have hsel := addRand_ok_ne_empty stub userID sel token h
  unfold add
  rw [h]
  unfold Stub.PutState
  cases hp : stub.putErr stub.puts with
  | some e => simp
  | none => simp [hsel]

/-- A successful `add` returned the decimal text of `token`, and `addRand`
selected the value that is now stored under the user. -/
theorem add_ok (stub : Stub) (userID result : String) (token : Nat)
    (h : (add stub userID token).1 = .ok result) :
    result = fmt.Sprintd token ∧
      ∃ sel, addRand stub userID token = .ok sel ∧
        (add stub userID token).2.state userID = some sel := by
  cases hr : addRand stub userID token with
  | panic msg => unfold add at h; rw [hr] at h; simp at h
  | err e => unfold add at h; rw [hr] at h; simp at h
  | ok sel =>
    have ha := add_of_addRand stub userID sel token hr
    cases hp : stub.putErr stub.puts with
    | some e =>
      rw [(ha.2.2 e hp).1] at h
      simp at h
    | none =>
      have h3 := ha.2.1 hp
      rw [h3.1] at h
      simp only [Result.ok.injEq] at h
      exact ⟨h.symm, sel, rfl, h3.2⟩

/-- C9 at the failing input: no cached balance and an empty ledger for "u",
replies "3" and "7". The "add" succeeds, `addRand` selects "7" and "7" is
persisted under "u", but the payload returned is "0", the decimal text of the
balance handed to `add`. -/
theorem add_returns_old_balance :
    (Invoke 0 ⟨none⟩ (stubOf ["add", "u"] (fun _ => none)
        (shim.Success (some "3")) (shim.Success (some "7")))).1
        = .response (shim.Success (some "0")) ∧
      addRand (stubOf ["add", "u"] (fun _ => none)
        (shim.Success (some "3")) (shim.Success (some "7"))) "u" 0 = .ok "7" ∧
      (Invoke 0 ⟨none⟩ (stubOf ["add", "u"] (fun _ => none)
        (shim.Success (some "3")) (shim.Success (some "7")))).2.2.state "u"
        = some "7" := by
  decide

/-- An "add" invocation for user `u` either fails while it loads the balance
of `u` (an error response), or it runs `add` on the balance `v` that the cache
then holds for `u`. -/
theorem Invoke_add_load (draw : Nat) (t : SimpleAsset) (stub : Stub)
    (u : String) (rest : List String)
    (hargs : stub.stringArgs = "add" :: u :: rest) :
    (∃ r, r.Status = shim.ERROR ∧ (Invoke draw t stub).1 = .response r ∧
        (Invoke draw t stub).2.2 = stub) ∨
      (∃ v m, m u = some v ∧
        Invoke draw t stub = respond ⟨some m⟩ (add stub u v)) := by
  have fin (v : Nat) (m : String → Option Nat) :
      (match add stub u v with
        | (.panic msg, stub) => ((Outcome.panic msg, (⟨some m⟩ : SimpleAsset), stub) :
            Outcome × SimpleAsset × Stub)
        | (.err err, stub) => (.response (shim.Error err), ⟨some m⟩, stub)
        | (.ok result, stub) => (.response (shim.Success (some result)), ⟨some m⟩, stub))
        = respond ⟨some m⟩ (add stub u v) := by
    cases add stub u v with
    | mk res s2 => cases res <;> rfl
  unfold Invoke Stub.GetFunctionAndParameters Stub.GetStringArgs
  simp only [hargs, if_true]
  cases hc : (t.token.getD fun _ => none) u with
  | some v => exact Or.inr ⟨v, _, hc, fin v _⟩
  | none =>
    simp only
    cases hg : stub.GetState u with
    | error e => exact Or.inl ⟨_, rfl, rfl, rfl⟩
    | ok vv =>
      simp only
      by_cases hl : (vv.getD "").length = 0
      · simp only [hl, if_true]
        exact Or.inr ⟨0, _, by simp [assign], fin 0 _⟩
      · simp only [hl, if_false]
        cases hp : strconv.ParseUint (vv.getD "") with
        | error e => exact Or.inl ⟨_, rfl, rfl, rfl⟩
        | ok v => exact Or.inr ⟨v, _, by simp [assign], fin v _⟩

/-- What every successful "add" invocation for a user `u` returns and stores:
the payload is the decimal text of the balance `v` that the in-memory cache
holds for `u` (loaded from the ledger on a miss), the value handed to `add`;
the value selected from the sibling replies is the one persisted under `u`. -/
theorem Invoke_add_payload (draw : Nat) (t : SimpleAsset) (stub : Stub)
    (u : String) (rest : List String) (r : peer.Response)
    (hargs : stub.stringArgs = "add" :: u :: rest)
    (hr : (Invoke draw t stub).1 = .response r)
    (hok : r.Status = shim.OK) :
    ∃ v sel m, (Invoke draw t stub).2.1.token = some m ∧ m u = some v ∧
      r.Payload = some (fmt.Sprintd v) ∧
      addRand stub u v = .ok sel ∧
      (Invoke draw t stub).2.2.state u = some sel := by
  rcases Invoke_add_load draw t stub u rest hargs with ⟨r2, hs, h1, -⟩ | ⟨v, m, hm, h⟩
  · rw [h1] at hr
    simp only [Outcome.response.injEq] at hr
    rw [← hr, hs] at hok
    simp [shim.OK, shim.ERROR] at hok
  · rw [h] at hr ⊢
    cases ha : add stub u v with
    | mk res s2 =>
      rw [ha] at hr
      cases res with
      | panic msg => simp [respond] at hr
      | err e =>
        simp only [respond, Outcome.response.injEq] at hr
        rw [← hr] at hok
        simp [shim.Error, shim.OK, shim.ERROR] at hok
      | ok result =>
        simp only [respond, Outcome.response.injEq] at hr
        obtain ⟨h1, sel, h2, h3⟩ := add_ok stub u result v (by rw [ha])
        rw [ha] at h3
        refine ⟨v, sel, m, rfl, hm, ?_, h2, h3⟩
        rw [← hr, h1]
        rfl

/-- An instance of `Invoke_add_payload`: replies "3" and "7" for a user without
balance. -/
theorem Invoke_add_payload_instance :
    (Invoke 0 ⟨none⟩ (stubOf ["add", "u"] (fun _ => none)
        (shim.Success (some "3")) (shim.Success (some "7")))).1
        = .response (shim.Success (some "0")) ∧
      ∃ v sel m,
        (Invoke 0 ⟨none⟩ (stubOf ["add", "u"] (fun _ => none)
          (shim.Success (some "3")) (shim.Success (some "7")))).2.1.token = some m ∧
        m "u" = some v ∧
        (shim.Success (some "0")).Payload = some (fmt.Sprintd v) ∧
        addRand (stubOf ["add", "u"] (fun _ => none)
          (shim.Success (some "3")) (shim.Success (some "7"))) "u" v = .ok sel ∧
        (Invoke 0 ⟨none⟩ (stubOf ["add", "u"] (fun _ => none)
          (shim.Success (some "3")) (shim.Success (some "7")))).2.2.state "u" = some sel :=
  ⟨by decide,
    Invoke_add_payload 0 ⟨none⟩ (stubOf ["add", "u"] (fun _ => none)
        (shim.Success (some "3")) (shim.Success (some "7"))) "u" []
      (shim.Success (some "0")) rfl (by decide) rfl⟩

/-- C10: for every value `v`, when exactly one of the two siblings gives a
usable reply `v` and the other reply is dropped (status other than 200, or a
payload that is not a decimal `uint64`), whichever sibling it is, `addRand`
does not abort and selects `v`, and `add` writes the decimal text of `v` under
the user: when that write goes through, the ledger holds it as the balance. -/
theorem add_single_survivor (stub : Stub) (userID : String) (token v : Nat)
    (h : (Usable (reply stub userID 1) v ∧ Dropped (reply stub userID 2)) ∨
      (Dropped (reply stub userID 1) ∧ Usable (reply stub userID 2) v)) :
    addRand stub userID token = .ok (fmt.Sprintd v) ∧
      (add stub userID token).2 = (stub.PutState userID (fmt.Sprintd v)).2 ∧
      (stub.putErr stub.puts = none →
        (add stub userID token).1 = .ok (fmt.Sprintd token) ∧
        (add stub userID token).2.state userID = some (fmt.Sprintd v)) := by
  have hr := addRand_one stub userID token v h
  have ha := add_of_addRand stub userID (fmt.Sprintd v) token hr
  exact ⟨hr, ha.1, ha.2.1⟩

/-- Witness of C10: `addc1` replies the malformed "abc", `addc2` replies "5":
"5" is selected and persisted. -/
theorem add_single_survivor_witness :
    Dropped (reply (stubOf ["add", "u"] (fun _ => none)
        (shim.Success (some "abc")) (shim.Success (some "5"))) "u" 1) ∧
      Usable (reply (stubOf ["add", "u"] (fun _ => none)
        (shim.Success (some "abc")) (shim.Success (some "5"))) "u" 2) 5 ∧
      addRand (stubOf ["add", "u"] (fun _ => none)
        (shim.Success (some "abc")) (shim.Success (some "5"))) "u" 0
        = .ok (fmt.Sprintd 5) ∧
      (add (stubOf ["add", "u"] (fun _ => none)
        (shim.Success (some "abc")) (shim.Success (some "5"))) "u" 0).2
        = ((stubOf ["add", "u"] (fun _ => none)
            (shim.Success (some "abc")) (shim.Success (some "5"))).PutState "u"
              (fmt.Sprintd 5)).2 ∧
      ((stubOf ["add", "u"] (fun _ => none)
          (shim.Success (some "abc")) (shim.Success (some "5"))).putErr
          (stubOf ["add", "u"] (fun _ => none)
            (shim.Success (some "abc")) (shim.Success (some "5"))).puts = none →
        (add (stubOf ["add", "u"] (fun _ => none)
          (shim.Success (some "abc")) (shim.Success (some "5"))) "u" 0).1
          = .ok (fmt.Sprintd 0) ∧
        (add (stubOf ["add", "u"] (fun _ => none)
          (shim.Success (some "abc")) (shim.Success (some "5"))) "u" 0).2.state "u"
          = some (fmt.Sprintd 5)) :=
  have hd : Dropped (reply (stubOf ["add", "u"] (fun _ => none)
      (shim.Success (some "abc")) (shim.Success (some "5"))) "u" 1) :=
    Or.inr ⟨⟨"abc", .ErrSyntax⟩, rfl⟩
  have hu : Usable (reply (stubOf ["add", "u"] (fun _ => none)
      (shim.Success (some "abc")) (shim.Success (some "5"))) "u" 2) 5 :=
    ⟨rfl, rfl⟩
  ⟨hd, hu, add_single_survivor _ "u" 0 5 (Or.inr ⟨hd, hu⟩)⟩

end addc

/-! ## Theorems: addc, failure paths -/

namespace addc

open shim

/-- With both replies dropped, `addRand` indexes an empty slice and panics;
`add` and an "add" invocation panic with it and write nothing. -/
theorem addRand_none (stub : Stub) (userID : String) (token : Nat)
    (h1 : Dropped (reply stub userID 1)) (h2 : Dropped (reply stub userID 2)) :
    addRand stub userID token
        = .panic "runtime error: index out of range [0] with length 0" ∧
      add stub userID token
        = (.panic "runtime error: index out of range [0] with length 0", stub) := by
  have hr : addRand stub userID token
      = .panic "runtime error: index out of range [0] with length 0" := by
    unfold addRand
    simp only [List.foldl, addRandStep_dropped stub userID _ 1 h1,
      addRandStep_dropped stub userID _ 2 h2]
    rfl
  refine ⟨hr, ?_⟩
  unfold add
  rw [hr]

/-- C11 at the failing input: `addc1` answers with an error status and
`addc2` with the non-numeric payload "abc". The "add" invocation does not
return an error response: `addRand` faults on `res[0]` of the empty slice and
the invocation ends in a run-time panic. No ledger write is made. -/
theorem add_without_replies_panics :
    Dropped (reply (stubOf ["add", "u"] (fun _ => none)
        (shim.Error "unreachable") (shim.Success (some "abc"))) "u" 1) ∧
      Dropped (reply (stubOf ["add", "u"] (fun _ => none)
        (shim.Error "unreachable") (shim.Success (some "abc"))) "u" 2) ∧
      (Invoke 0 ⟨none⟩ (stubOf ["add", "u"] (fun _ => none)
        (shim.Error "unreachable") (shim.Success (some "abc")))).1
        = .panic "runtime error: index out of range [0] with length 0" ∧
      (Invoke 0 ⟨none⟩ (stubOf ["add", "u"] (fun _ => none)
        (shim.Error "unreachable") (shim.Success (some "abc")))).2.2.puts = 0 ∧
      (Invoke 0 ⟨none⟩ (stubOf ["add", "u"] (fun _ => none)
        (shim.Error "unreachable") (shim.Success (some "abc")))).2.2.state "u" = none := by
  refine ⟨Or.inl (by decide), Or.inr ⟨⟨"abc", .ErrSyntax⟩, rfl⟩, ?_, ?_, ?_⟩ <;> decide

/-- C12 at the failing input: no cached balance and an empty ledger for "u",
replies "3" and "7". The "add" succeeds; afterwards the cache holds 0 for "u"
and the ledger holds "7" under "u", which `ParseUint` reads as 7. -/
theorem add_leaves_cache_stale :
    (Invoke 0 ⟨none⟩ (stubOf ["add", "u"] (fun _ => none)
        (shim.Success (some "3")) (shim.Success (some "7")))).1
        = .response (shim.Success (some "0")) ∧
      ((Invoke 0 ⟨none⟩ (stubOf ["add", "u"] (fun _ => none)
        (shim.Success (some "3")) (shim.Success (some "7")))).2.1.token.getD
          (fun _ => none)) "u" = some 0 ∧
      (Invoke 0 ⟨none⟩ (stubOf ["add", "u"] (fun _ => none)
        (shim.Success (some "3")) (shim.Success (some "7")))).2.2.state "u"
        = some "7" ∧
      strconv.ParseUint "7" = .ok 7 ∧
      fmt.Sprintd 0 ≠ "7" := by
  refine ⟨?_, ?_, ?_, rfl, ?_⟩ <;> decide

/-- An "add" invocation whose write of the balance fails answers with an
error response. -/
theorem Invoke_add_write_fails (draw : Nat) (t : SimpleAsset) (stub : Stub)
    (u : String) (rest : List String) (e : String) (r : peer.Response)
    (hargs : stub.stringArgs = "add" :: u :: rest)
    (hw : stub.putErr stub.puts = some e)
    (hr : (Invoke draw t stub).1 = .response r) :
    r.Status = shim.ERROR := by
  rcases Invoke_add_load draw t stub u rest hargs with ⟨r2, hs, h1, -⟩ | ⟨v, m, -, h⟩
  · rw [h1] at hr
    simp only [Outcome.response.injEq] at hr
    rw [← hr, hs]
  · rw [h] at hr
    cases hra : addRand stub u v with
    | panic msg =>
      unfold add at hr
      rw [hra] at hr
      simp [respond] at hr
    | err e2 =>
      unfold add at hr
      rw [hra] at hr
      simp only [respond, Outcome.response.injEq] at hr
      rw [← hr]
      rfl
    | ok sel =>
      have ha := (add_of_addRand stub u sel v hra).2.2 e hw
      cases hadd : add stub u v with
      | mk res s2 =>
        rw [hadd] at hr ha
        simp only at ha
        rw [ha.1] at hr
        simp only [respond, Outcome.response.injEq] at hr
        rw [← hr]
        rfl

/-- Without a parameter, `Invoke` faults on `args[0]`, whatever the function
name is. -/
theorem Invoke_no_args (draw : Nat) (t : SimpleAsset) (stub : Stub)
    (h : stub.GetFunctionAndParameters.2 = []) :
    (Invoke draw t stub).1
      = .panic "runtime error: index out of range [0] with length 0" := by
  unfold Invoke
  cases hfp : stub.GetFunctionAndParameters with
  | mk fn args =>
    rw [hfp] at h
    simp only at h
    subst h
    rfl

/-- C19 at the failing inputs: "add", "random" and "other" without a
parameter, and no argument at all. `Invoke` does not return an error
response: it faults on `args[0]` and ends in a run-time panic. -/
theorem Invoke_empty_args_panics :
    (Invoke 0 ⟨none⟩ (stubOf ["add"] (fun _ => none)
        (shim.Success (some "3")) (shim.Success (some "7")))).1
        = .panic "runtime error: index out of range [0] with length 0" ∧
      (Invoke 0 ⟨none⟩ (stubOf ["random"] (fun _ => none)
        (shim.Success (some "3")) (shim.Success (some "7")))).1
        = .panic "runtime error: index out of range [0] with length 0" ∧
      (Invoke 0 ⟨none⟩ (stubOf ["other"] (fun _ => none)
        (shim.Success (some "3")) (shim.Success (some "7")))).1
        = .panic "runtime error: index out of range [0] with length 0" ∧
      (Invoke 0 ⟨none⟩ (stubOf [] (fun _ => none)
        (shim.Success (some "3")) (shim.Success (some "7")))).1
        = .panic "runtime error: index out of range [0] with length 0" := by
  decide

end addc

/-! ## Theorems: sacc, writes, `Init` and dispatch -/

namespace sacc

open shim

/-- C13 at the failing input: an `Init` with two arguments whose first write
of the nonce fails. The response is a success response (status 200, payload
"failed to init nonce"), and neither the counter nor the stored nonce is
reset. -/
theorem Init_reports_success_on_failed_write :
    failedInitStub.putErr failedInitStub.puts = some "write failed" ∧
      (Init ⟨5⟩ failedInitStub).1 = shim.Success (some "failed to init nonce") ∧
      (Init ⟨5⟩ failedInitStub).1.Status = shim.OK ∧
      (Init ⟨5⟩ failedInitStub).2.1.nonce = 5 ∧
      (Init ⟨5⟩ failedInitStub).2.2.state "nonce" = some "5" := by
  decide

/-- The second write of `Init` failing gives an error response. -/
theorem Init_second_write_fails (t : SimpleAsset) (stub : Stub) (e : String)
    (hlen : stub.stringArgs.length = 2)
    (h1 : stub.putErr stub.puts = none)
    (h2 : stub.putErr (stub.puts + 1) = some e) :
    (Init t stub).1.Status = shim.ERROR := by
  unfold Init Stub.GetStringArgs Stub.PutState
  simp [hlen, h1, h2, shim.Error]

/-- A "set" invocation that passes the guard and whose write of the asset, or
of the nonce after it, fails is answered with a success response all the
same, with an empty payload. -/
theorem Invoke_set_write_fails (t : SimpleAsset) (stub : Stub) (k v : String)
    (n : Nat)
    (hargs : stub.stringArgs = ["set", k, v])
    (hn : persistedNonce stub = some n) (hle : n ≤ t.nonce)
    (hw : (∃ e, stub.putErr stub.puts = some e) ∨
      (stub.putErr stub.puts = none ∧ ∃ e, stub.putErr (stub.puts + 1) = some e)) :
    (Invoke t stub).1 = shim.Success (some "") ∧
      (Invoke t stub).1.Status = shim.OK := by
  have hfn : stub.GetFunctionAndParameters = ("set", [k, v]) := by
    unfold Stub.GetFunctionAndParameters Stub.GetStringArgs
    rw [hargs]
  rw [Invoke_set_eq_locked t stub [k, v] n hfn hn]
  unfold locked set Stub.PutState
  simp only [Nat.not_lt.mpr hle, if_false]
  rcases hw with ⟨e, h1⟩ | ⟨h1, e, h2⟩
  · simp [h1, shim.Success]
  · simp [h1, h2, shim.Success]

/-- An `Init` with two arguments whose two writes go through answers
`shim.Success(nil)`. -/
theorem Init_succeeds (t : SimpleAsset) (stub : Stub)
    (hlen : stub.stringArgs.length = 2)
    (h1 : stub.putErr stub.puts = none)
    (h2 : stub.putErr (stub.puts + 1) = none) :
    (Init t stub).1 = shim.Success none := by
  unfold Init Stub.GetStringArgs Stub.PutState
  simp [hlen, h1, h2]

/-- C14: for every state and every valid argument list, a successful `Init`
(one that answers `shim.Success(nil)`) leaves every ledger key other than
"nonce" unchanged, sets the ledger "nonce" to "0" and the in-memory counter to
0, and a second successful `Init` on the state it left gives that state
again. -/
theorem Init_frame_idempotent (t : SimpleAsset) (stub : Stub)
    (h : (Init t stub).1 = shim.Success none) :
    stub.stringArgs.length = 2 ∧
      (∀ k, k ≠ "nonce" → (Init t stub).2.2.state k = stub.state k) ∧
      (Init t stub).2.2.state "nonce" = some "0" ∧
      (Init t stub).2.1.nonce = 0 ∧
      (∀ stub2 : Stub, stub2.state = (Init t stub).2.2.state →
        (Init (Init t stub).2.1 stub2).1 = shim.Success none →
        (Init (Init t stub).2.1 stub2).2.1.nonce = (Init t stub).2.1.nonce ∧
        (Init (Init t stub).2.1 stub2).2.2.state = (Init t stub).2.2.state) := by
  have hi := Init_success t stub h
  have hlen : stub.stringArgs.length = 2 := by
    by_contra hne
    unfold Init Stub.GetStringArgs at h
    simp [hne, shim.Error, shim.Success, shim.OK, shim.ERROR] at h
  refine ⟨hlen, ?_, ?_, hi.1, ?_⟩
  · intro k hk
    rw [hi.2]
    simp [hk]
  · rw [hi.2]
    simp
  · intro stub2 hst h2
    have hi2 := Init_success (Init t stub).2.1 stub2 h2
    refine ⟨by rw [hi2.1, hi.1], ?_⟩
    rw [hi2.2, hst, hi.2]
    funext k
    by_cases hk : k = "nonce" <;> simp [hk]

/-- Witness of C14: `Init` on a ledger that holds "5" under "nonce" and "100"
under "alice", with counter 7. -/
theorem Init_frame_idempotent_witness :
    (Init ⟨7⟩ (stubOf ["alice", "0"]
        (fun k => if k = "alice" then some "100" else ledgerFive k))).1
        = shim.Success none ∧
      (stubOf ["alice", "0"]
        (fun k => if k = "alice" then some "100" else ledgerFive k)).stringArgs.length = 2 ∧
      (∀ k, k ≠ "nonce" →
        (Init ⟨7⟩ (stubOf ["alice", "0"]
          (fun k => if k = "alice" then some "100" else ledgerFive k))).2.2.state k
          = (stubOf ["alice", "0"]
              (fun k => if k = "alice" then some "100" else ledgerFive k)).state k) ∧
      (Init ⟨7⟩ (stubOf ["alice", "0"]
        (fun k => if k = "alice" then some "100" else ledgerFive k))).2.2.state "nonce"
        = some "0" ∧
      (Init ⟨7⟩ (stubOf ["alice", "0"]
        (fun k => if k = "alice" then some "100" else ledgerFive k))).2.1.nonce = 0 ∧
      (∀ stub2 : Stub,
        stub2.state = (Init ⟨7⟩ (stubOf ["alice", "0"]
          (fun k => if k = "alice" then some "100" else ledgerFive k))).2.2.state →
        (Init (Init ⟨7⟩ (stubOf ["alice", "0"]
          (fun k => if k = "alice" then some "100" else ledgerFive k))).2.1 stub2).1
          = shim.Success none →
        (Init (Init ⟨7⟩ (stubOf ["alice", "0"]
          (fun k => if k = "alice" then some "100" else ledgerFive k))).2.1 stub2).2.1.nonce
          = (Init ⟨7⟩ (stubOf ["alice", "0"]
              (fun k => if k = "alice" then some "100" else ledgerFive k))).2.1.nonce ∧
        (Init (Init ⟨7⟩ (stubOf ["alice", "0"]
          (fun k => if k = "alice" then some "100" else ledgerFive k))).2.1 stub2).2.2.state
          = (Init ⟨7⟩ (stubOf ["alice", "0"]
              (fun k => if k = "alice" then some "100" else ledgerFive k))).2.2.state) :=
  ⟨by decide,
    Init_frame_idempotent ⟨7⟩ (stubOf ["alice", "0"]
      (fun k => if k = "alice" then some "100" else ledgerFive k)) (by decide)⟩

/-- C15: for every function name other than "set" (the empty name of an empty
proposal included) and every argument list, `Invoke` gives exactly the
response of `get` on those arguments and changes neither the ledger nor the
in-memory counter. -/
theorem Invoke_other_is_get (t : SimpleAsset) (stub : Stub)
    (h : stub.GetFunctionAndParameters.1 ≠ "set") :
    (Invoke t stub).1 = getResponse stub stub.GetFunctionAndParameters.2 ∧
      (Invoke t stub).2.1.nonce = t.nonce ∧
      (Invoke t stub).2.2 = stub := by
  unfold Invoke getResponse
  cases hfp : stub.GetFunctionAndParameters with
  | mk fn args =>
    rw [hfp] at h
    simp only at h
    simp only [h, if_false]
    cases get stub args <;> exact ⟨rfl, rfl, rfl⟩

/-- Witness of C15: the empty proposal and the function name "delete" on the
ledger after `Init` and `set("alice","100")`. -/
theorem Invoke_other_is_get_witness :
    (stubOf [] scenarioSet.2.2.state).GetFunctionAndParameters.1 = "" ∧
      (Invoke ⟨3⟩ (stubOf [] scenarioSet.2.2.state)).1
        = shim.Error "Incorrect arguments. Expecting a key" ∧
      (Invoke ⟨3⟩ (stubOf ["delete", "alice"] scenarioSet.2.2.state)).1
        = shim.Success (some "100") ∧
      ((Invoke ⟨3⟩ (stubOf ["delete", "alice"] scenarioSet.2.2.state)).1
          = getResponse (stubOf ["delete", "alice"] scenarioSet.2.2.state)
              (stubOf ["delete", "alice"] scenarioSet.2.2.state).GetFunctionAndParameters.2 ∧
        (Invoke ⟨3⟩ (stubOf ["delete", "alice"] scenarioSet.2.2.state)).2.1.nonce = 3 ∧
        (Invoke ⟨3⟩ (stubOf ["delete", "alice"] scenarioSet.2.2.state)).2.2
          = stubOf ["delete", "alice"] scenarioSet.2.2.state) :=
  ⟨rfl, by decide, by decide,
    Invoke_other_is_get ⟨3⟩ (stubOf ["delete", "alice"] scenarioSet.2.2.state)
      (by decide)⟩

end sacc

/-! ## Theorems: sacc, the counter and the stored nonce over time -/

namespace sacc

open shim

/-- An `Invoke` leaves the counter as it is or adds one to it modulo
`2 ^ 64`. -/
theorem Invoke_nonce_cases (t : SimpleAsset) (stub : Stub) :
    (Invoke t stub).2.1.nonce = t.nonce ∨
      (Invoke t stub).2.1.nonce = (t.nonce + 1) % 2 ^ 64 := by
  by_cases hfn : stub.GetFunctionAndParameters.1 = "set"
  · unfold Invoke
    cases hfp : stub.GetFunctionAndParameters with
    | mk fn args =>
      rw [hfp] at hfn
      simp only at hfn
      subst hfn
      simp only [if_true]
      cases hg : stub.GetState "nonce" with
      | error e => exact Or.inl rfl
      | ok nonceBytes =>
        simp only
        cases hp : strconv.ParseUint
            (if (nonceBytes.getD "").length ≠ 0 then nonceBytes.getD "" else "0") with
        | error e => exact Or.inl rfl
        | ok nonce =>
          simp only
          by_cases hlt : t.nonce < nonce
          · simp [hlt]
          · simp only [hlt, if_false]
            cases hs : set stub args nonce with
            | mk r stub2 => cases r <;> exact Or.inr rfl
  · rw [Invoke_other_frame t stub hfn]
    exact Or.inl rfl

/-- C17 as stated fails at the largest counter: with counter `2^64 - 1` the
granted `set("bob","1")` on a ledger with "0" under "nonce" succeeds and
leaves the counter at 0. -/
theorem counter_drops_at_max :
    (Invoke ⟨maxUint64⟩ (stubOf ["set", "bob", "1"] ledgerZero)).1
        = shim.Success (some "1") ∧
      (Invoke ⟨maxUint64⟩ (stubOf ["set", "bob", "1"] ledgerZero)).2.1.nonce = 0 ∧
      ¬ (maxUint64 ≤
        (Invoke ⟨maxUint64⟩ (stubOf ["set", "bob", "1"] ledgerZero)).2.1.nonce) := by
  decide

/-- C17 (amended): for every state whose counter is below `2^64 - 1` and
every `Invoke` call, the counter after the call is greater than or equal to
the counter before it, and at most one more. -/
theorem Invoke_counter_monotone (t : SimpleAsset) (stub : Stub)
    (hc : t.nonce + 1 < 2 ^ 64) :
    t.nonce ≤ (Invoke t stub).2.1.nonce ∧
      (Invoke t stub).2.1.nonce ≤ t.nonce + 1 := by
  rcases Invoke_nonce_cases t stub with h | h
  · rw [h]
    exact ⟨Nat.le_refl _, Nat.le_succ _⟩
  · rw [h, Nat.mod_eq_of_lt hc]
    exact ⟨Nat.le_succ _, Nat.le_refl _⟩

/-- Witness of C17 (amended): counter 41 and a granted `set("alice","100")`. -/
theorem Invoke_counter_monotone_witness :
    (Invoke ⟨41⟩ (stubOf ["set", "alice", "100"] ledgerZero)).2.1.nonce = 42 ∧
      41 ≤ (Invoke ⟨41⟩ (stubOf ["set", "alice", "100"] ledgerZero)).2.1.nonce ∧
      (Invoke ⟨41⟩ (stubOf ["set", "alice", "100"] ledgerZero)).2.1.nonce ≤ 41 + 1 :=
  ⟨by decide,
    Invoke_counter_monotone ⟨41⟩ (stubOf ["set", "alice", "100"] ledgerZero)
      (by decide)⟩

theorem NoFault_NonceWriteCompletes (stub : Stub) (h : NoFault stub) :
    NonceWriteCompletes stub := fun _ _ _ => h.2 _

theorem persistedNonce_of_zero (stub : Stub) (hz : stub.state "nonce" = some "0")
    (hr : stub.getErr "nonce" = none) : persistedNonce stub = some 0 := by
  have hlen : ("0" : String).length ≠ 0 := by decide
  unfold persistedNonce Stub.GetState
  simp only [hr, hz, Option.getD_some, hlen, ne_eq, not_false_eq_true, if_true,
    ParseUint_zero]

/-- C20: starting from the state left by a successful `Init`, after every
finite sequence of `Invoke` calls (get or set, any arguments) in which every
ledger read and write succeeds, the ledger holds "0" under "nonce", and a
further such call leaves "0" there and, if it is a "set", is not rejected as a
double spend. -/
theorem Reachable_NoFault (t : SimpleAsset) (L : Ledger)
    (h : Reachable NoFault t L) :
    L "nonce" = some "0" ∧
      ∀ stub : Stub, stub.state = L → NoFault stub →
        (Invoke t stub).2.2.state "nonce" = some "0" ∧
        (stub.GetFunctionAndParameters.1 = "set" →
          (Invoke t stub).1 ≠ shim.Error "double spent") := by
  have hz : L "nonce" = some "0" := by
    induction h with
    | init t0 s0 hinit =>
      rw [(Init_success t0 s0 hinit).2]
      simp
    | step t L stub _ hst hP ih =>
      exact Invoke_keeps_zero t stub (by rw [hst]; exact ih)
        (NoFault_NonceWriteCompletes stub hP)
  refine ⟨hz, ?_⟩
  intro stub hst hnf
  have hzs : stub.state "nonce" = some "0" := by rw [hst]; exact hz
  refine ⟨Invoke_keeps_zero t stub hzs (NoFault_NonceWriteCompletes stub hnf), ?_⟩
  intro hfn
  have hfp : stub.GetFunctionAndParameters
      = ("set", stub.GetFunctionAndParameters.2) := by
    rw [← hfn]
  exact (Invoke_set_granted t stub _ 0 hfp
    (persistedNonce_of_zero stub hzs (hnf.1 _)) (Nat.zero_le _)).1

/-- Witness of C20: the state after `Init`, `set("alice","100")` and its
replay. -/
theorem Reachable_NoFault_witness :
    Reachable NoFault scenarioReplay.2.1 scenarioReplay.2.2.state ∧
      scenarioReplay.2.2.state "nonce" = some "0" ∧
      ∀ stub : Stub, stub.state = scenarioReplay.2.2.state → NoFault stub →
        (Invoke scenarioReplay.2.1 stub).2.2.state "nonce" = some "0" ∧
        (stub.GetFunctionAndParameters.1 = "set" →
          (Invoke scenarioReplay.2.1 stub).1 ≠ shim.Error "double spent") :=
  have hr : Reachable NoFault scenarioReplay.2.1 scenarioReplay.2.2.state :=
    Reachable.step scenarioSet.2.1 scenarioSet.2.2.state
      (stubOf ["set", "alice", "100"] scenarioSet.2.2.state)
      (Reachable.step scenarioInit.2.1 scenarioInit.2.2.state
        (stubOf ["set", "alice", "100"] scenarioInit.2.2.state)
        (Reachable.init ⟨0⟩ (stubOf ["alice", "0"] (fun _ => none)) (by decide)) rfl
        (NoFault_stubOf _ _))
      rfl (NoFault_stubOf _ _)
  ⟨hr, Reachable_NoFault scenarioReplay.2.1 scenarioReplay.2.2.state hr⟩

end sacc

/-! ## Theorems: addc, `random` -/

namespace addc

open shim

/-- A "random" invocation makes no ledger write, and when it answers with
status OK the payload is the decimal text of the drawn value. -/
theorem Invoke_random (draw : Nat) (t : SimpleAsset) (stub : Stub)
    (u : String) (rest : List String)
    (hargs : stub.stringArgs = "random" :: u :: rest) :
    (Invoke draw t stub).2.2 = stub ∧
      ∀ r, (Invoke draw t stub).1 = .response r → r.Status = shim.OK →
        r.Payload = some (fmt.Sprintd draw) := by
  have hne : ¬ ("random" = "add") := by decide
  have herr (r : peer.Response) (msg : String)
      (h : Outcome.response (shim.Error msg) = Outcome.response r)
      (hok : r.Status = shim.OK) : r.Payload = some (fmt.Sprintd draw) := by
    simp only [Outcome.response.injEq] at h
    rw [← h] at hok
    simp [shim.Error, shim.OK, shim.ERROR] at hok
  have hsucc (r : peer.Response)
      (h : Outcome.response (shim.Success (some (fmt.Sprintd draw))) = Outcome.response r) :
      r.Payload = some (fmt.Sprintd draw) := by
    simp only [Outcome.response.injEq] at h
    rw [← h]
    rfl
  unfold Invoke Stub.GetFunctionAndParameters Stub.GetStringArgs
  simp only [hargs, hne, if_false, if_true, random]
  cases hc : (t.token.getD fun _ => none) u with
  | some v => exact ⟨rfl, fun r h _ => hsucc r h⟩
  | none =>
    simp only
    cases hg : stub.GetState u with
    | error e => exact ⟨rfl, fun r h hok => herr r _ h hok⟩
    | ok vv =>
      simp only
      by_cases hl : (vv.getD "").length = 0
      · rw [if_pos hl]
        exact ⟨rfl, fun r h _ => hsucc r h⟩
      · rw [if_neg hl]
        cases hp : strconv.ParseUint (vv.getD "") with
        | error e => exact ⟨rfl, fun r h hok => herr r _ h hok⟩
        | ok v => exact ⟨rfl, fun r h _ => hsucc r h⟩

/-- C16: for every 64-bit value `draw` drawn by the generator, the text that
`random` returns is the decimal text of `draw`; `ParseUint`, the parser of
`addRand`, reads it back as `draw`, so a sibling reply that carries it is
usable with value `draw`; and a "random" invocation performs no ledger
write. -/
theorem random_valid (draw : Nat) (t : SimpleAsset) (stub : Stub)
    (u : String) (rest : List String) (token : Nat)
    (hd : draw < 2 ^ 64) :
    random draw stub u token = .ok (fmt.Sprintd draw) ∧
      strconv.ParseUint (fmt.Sprintd draw) = .ok draw ∧
      Usable (shim.Success (some (fmt.Sprintd draw))) draw ∧
      (stub.stringArgs = "random" :: u :: rest →
        (Invoke draw t stub).2.2 = stub ∧
        ∀ r, (Invoke draw t stub).1 = .response r → r.Status = shim.OK →
          r.Payload = some (fmt.Sprintd draw)) :=
  ⟨rfl, strconv.ParseUint_Sprintd draw hd,
    ⟨rfl, strconv.ParseUint_Sprintd draw hd⟩,
    fun hargs => Invoke_random draw t stub u rest hargs⟩

/-- Witness of C16: the largest `uint64` as the drawn value. -/
theorem random_valid_witness :
    maxUint64 < 2 ^ 64 ∧
      (Invoke maxUint64 ⟨none⟩ (stubOf ["random", "u"] (fun _ => none)
        (shim.Success (some "3")) (shim.Success (some "7")))).1
        = .response (shim.Success (some "18446744073709551615")) ∧
      random maxUint64 (stubOf ["random", "u"] (fun _ => none)
        (shim.Success (some "3")) (shim.Success (some "7"))) "u" 0
        = .ok (fmt.Sprintd maxUint64) ∧
      strconv.ParseUint (fmt.Sprintd maxUint64) = .ok maxUint64 ∧
      Usable (shim.Success (some (fmt.Sprintd maxUint64))) maxUint64 ∧
      ((stubOf ["random", "u"] (fun _ => none)
          (shim.Success (some "3")) (shim.Success (some "7"))).stringArgs
          = "random" :: "u" :: [] →
        (Invoke maxUint64 ⟨none⟩ (stubOf ["random", "u"] (fun _ => none)
          (shim.Success (some "3")) (shim.Success (some "7")))).2.2
          = stubOf ["random", "u"] (fun _ => none)
              (shim.Success (some "3")) (shim.Success (some "7")) ∧
        ∀ r, (Invoke maxUint64 ⟨none⟩ (stubOf ["random", "u"] (fun _ => none)
            (shim.Success (some "3")) (shim.Success (some "7")))).1 = .response r →
          r.Status = shim.OK → r.Payload = some (fmt.Sprintd maxUint64)) :=
  ⟨by decide, by decide,
    random_valid maxUint64 ⟨none⟩ (stubOf ["random", "u"] (fun _ => none)
      (shim.Success (some "3")) (shim.Success (some "7"))) "u" [] 0 (by decide)⟩

end addc

/-! ## Theorems: sacc, invocations that overlap -/

namespace sacc

open shim

/-- A single invocation in `runLocked` is `Invoke`. -/
theorem runLocked_single (t : SimpleAsset) (stub : Stub) (args : List String)
    (n : Nat)
    (hfn : stub.GetFunctionAndParameters = ("set", args))
    (hn : persistedNonce stub = some n) :
    runLocked n t stub.state [(stub, args)]
      = ([(Invoke t stub).1], (Invoke t stub).2.1, (Invoke t stub).2.2.state) := by
  rw [Invoke_set_eq_locked t stub args n hfn hn]
  rfl

/-- C18 as stated fails: after `Init` the invocations `set("alice","100")` and
`set("bob","7")` both read the nonce 0 before either takes the lock; whichever
takes the lock first, both are answered with success and neither receives the
double-spend error. -/
theorem concurrent_sets_both_granted :
    persistedNonce (stubOf ["set", "alice", "100"] scenarioInit.2.2.state) = some 0 ∧
      persistedNonce (stubOf ["set", "bob", "7"] scenarioInit.2.2.state) = some 0 ∧
      (runLocked 0 scenarioInit.2.1 scenarioInit.2.2.state twoSets).1
        = [shim.Success (some "100"), shim.Success (some "7")] ∧
      (runLocked 0 scenarioInit.2.1 scenarioInit.2.2.state twoSets.reverse).1
        = [shim.Success (some "7"), shim.Success (some "100")] := by
  refine ⟨rfl, rfl, ?_, ?_⟩ <;> decide

/-- C18 (amended): among concurrent "set" invocations that all present the
same nonce `n`, with `n` at most the counter, none receives the double-spend
error, in whatever order they take the lock: every one of them passes the
guard and the counter grows by their number (as long as it stays a
`uint64`). -/
theorem runLocked_none_rejected (n : Nat) (t : SimpleAsset) (L : Ledger)
    (l : List (Stub × List String))
    (hle : n ≤ t.nonce) (hc : t.nonce + l.length < 2 ^ 64) :
    (runLocked n t L l).1.length = l.length ∧
      (∀ r ∈ (runLocked n t L l).1, r ≠ shim.Error "double spent") ∧
      (runLocked n t L l).2.1.nonce = t.nonce + l.length := by
  induction l generalizing t L with
  | nil => exact ⟨rfl, fun r hr => absurd hr (List.not_mem_nil r), rfl⟩
  | cons p rest ih =>
    obtain ⟨stub, args⟩ := p
    simp only [List.length_cons] at hc
    have hg := locked_granted t { stub with state := L } args n hle
    have hone : (t.nonce + 1) % 2 ^ 64 = t.nonce + 1 := Nat.mod_eq_of_lt (by omega)
    rw [hone] at hg
    have ih2 := ih (locked t { stub with state := L } args n).2.1
      (locked t { stub with state := L } args n).2.2.state
      (by rw [hg.2.2]; omega) (by rw [hg.2.2]; omega)
    unfold runLocked
    simp only [List.length_cons, List.mem_cons]
    refine ⟨by rw [ih2.1], ?_, by rw [ih2.2.2, hg.2.2]; omega⟩
    intro r hr
    rcases hr with h | h
    · rw [h]
      exact hg.1
    · exact ih2.2.1 r h

/-- Witness of C18 (amended): the two invocations after `Init`, which both
read the nonce 0. -/
theorem runLocked_none_rejected_witness :
    0 ≤ scenarioInit.2.1.nonce ∧
      (runLocked 0 scenarioInit.2.1 scenarioInit.2.2.state twoSets).1.length
        = twoSets.length ∧
      (∀ r ∈ (runLocked 0 scenarioInit.2.1 scenarioInit.2.2.state twoSets).1,
        r ≠ shim.Error "double spent") ∧
      (runLocked 0 scenarioInit.2.1 scenarioInit.2.2.state twoSets).2.1.nonce
        = scenarioInit.2.1.nonce + twoSets.length :=
  ⟨Nat.zero_le _,
    runLocked_none_rejected 0 scenarioInit.2.1 scenarioInit.2.2.state twoSets
      (Nat.zero_le _) (by decide)⟩

end sacc
